import Mathlib

/-!
# Open-file subsystem of `kern/syscall/file.c`

A shallow embedding of the file system calls `sys_open`, `sys_read`,
`sys_write`, `sys_dup2`, `sys_lseek`, `sys_close` and of the static helper
`open`.

* Kernel memory holding `struct File` objects is a map from addresses to
  objects; a descriptor-table slot holds `none` (NULL) or an address, so two
  slots can alias one object.
* The answers of the collaborators (`kmalloc`, `copyinstr`, `vfs_open`,
  `lock_create`, `VOP_READ`, `VOP_WRITE`, `VOP_ISSEEKABLE`, `VOP_STAT`,
  `copyin`) are arguments of the call that consumes them, one per invocation
  in the source text, so a call that the source invokes twice has two answers.
* Every collaborator invocation and every evaluation of
  `curproc->file_table[i]` is appended to the `trace` of the state.
* A run that dereferences NULL, a freed object, an uninitialised field or a
  value read outside the descriptor table, or that writes outside the
  descriptor table, ends in `Outcome.undefined`.
* The constants of the headers that are not part of this file
  (`MAX_PROCESS_OPEN_FILES`, `MAX_SYSTEM_OPEN_FILES`, the errno values, the
  `O_*` and `SEEK_*` values) are the fields of `Config`.
* `int` counters (`references`, `total_file_opened`) are mathematical
  integers; `off_t` arithmetic in `sys_lseek` wraps at 64 bits and the
  `off_t` to `int` conversion of `*ret` in `sys_read`/`sys_write` wraps at 32
  bits. Locks are handles only: the embedding is sequential.
* `open` allocates `sizeof(struct File*)` bytes (line 275), fewer than a
  `struct File` occupies, so the stores to the fields of the new object on
  lines 296-301 reach beyond the allocated block. The embedding records them as
  the event `store_past_block` and keeps the five fields in a record of the
  object's own: what these stores overwrite in neighbouring memory, and what
  may later overwrite the fields, depends on the memory layout and is outside
  the embedding. Properties of the field values over whole runs are therefore
  properties of this record only.
* The contents of the path buffer are not modelled; the re-invocations on
  lines 50 and 75 pass the buffer after `kfree` and get the answer their
  arguments name like any other invocation.
-/

namespace OS161

/-- The `struct File` of the source: vnode handle, flags given at open, current
offset, reference count and lock handle (`none` is a NULL lock). -/
structure File where
  v_ptr : Nat
  open_flags : Int
  offset : Int
  references : Int
  flock : Option Nat
deriving DecidableEq

/-- Observable actions, in the order the source performs them. -/
inductive Event where
  | table_read (i : Int)
  | table_write (i : Int)
  | kmalloc
  | kfree
  | copyinstr
  | vfs_open
  | vfs_close (v : Nat)
  | lock_create
  | lock_destroy (l : Nat)
  | VOP_READ (v : Nat) (pos : Int)
  | VOP_WRITE (v : Nat) (pos : Int)
  | VOP_ISSEEKABLE (v : Nat)
  | VOP_STAT (v : Nat)
  | copyin
  | store_past_block (p : Nat)
deriving DecidableEq

/-- Constants of the kernel headers used by `file.c`. -/
structure Config where
  MAX_PROCESS_OPEN_FILES : Nat
  MAX_SYSTEM_OPEN_FILES : Int
  EFAULT : Int
  ENFILE : Int
  EMFILE : Int
  EBADF : Int
  EINVAL : Int
  ESPIPE : Int
  O_ACCMODE : Int
  O_RDONLY : Int
  O_WRONLY : Int
  SEEK_SET : Int
  SEEK_CUR : Int
  SEEK_END : Int

/-- Kernel state seen by `file.c`: `curproc->file_table`, the live `struct File`
objects by address, the next address `kmalloc` hands out for a `struct File`,
the static counter `total_file_opened`, and the history of observable actions. -/
structure State where
  file_table : Nat → Option Nat
  heap : Nat → Option File
  brk : Nat
  total_file_opened : Int
  trace : List Event

/-- Reasons for which a run has no defined result. -/
inductive UB where
  | null_deref
  | dangling
  | out_of_bounds
  | uninitialised
deriving DecidableEq

/-- Result of a call: the returned `int`, the value stored through the result
pointer (`none` when nothing was stored) and the state after the call; or
undefined behaviour. -/
inductive Outcome where
  | ret (code : Int) (out : Option Int) (s : State)
  | undefined (why : UB)

/-- Returned error code of a defined run. -/
def Outcome.code? : Outcome → Option Int
  | .ret c _ _ => some c
  | .undefined _ => none

/-- Value stored through the result pointer by a defined run. -/
def Outcome.out? : Outcome → Option Int
  | .ret _ o _ => o
  | .undefined _ => none

/-- State after a defined run. -/
def Outcome.state? : Outcome → Option State
  | .ret _ _ s => some s
  | .undefined _ => none

/-- Reason of an undefined run. -/
def Outcome.why? : Outcome → Option UB
  | .ret _ _ _ => none
  | .undefined u => some u

/-- Two's complement value of the low `w` bits of `x`. -/
def wrap (w : Nat) (x : Int) : Int :=
  (x + 2 ^ (w - 1)) % 2 ^ w - 2 ^ (w - 1)

/-- Append an event to the trace. -/
def State.log (s : State) (e : Event) : State :=
  { s with trace := s.trace ++ [e] }

/-- Value of `curproc->file_table[i]`: `none` when `i` is outside the array
(an indeterminate value), otherwise the content of the slot. -/
def State.slot (K : Config) (s : State) (i : Int) : Option (Option Nat) :=
  if 0 ≤ i ∧ i < (K.MAX_PROCESS_OPEN_FILES : Int) then some (s.file_table i.toNat) else none

/-- Assignment `curproc->file_table[i] = v` for an index inside the array. -/
def State.setSlot (s : State) (i : Nat) (v : Option Nat) : State :=
  { s with file_table := Function.update s.file_table i v }

/-- Overwrite (or, with `none`, free) the object at address `p`. -/
def State.setFile (s : State) (p : Nat) (f : Option File) : State :=
  { s with heap := Function.update s.heap p f }

/-- Initial state: every slot empty, no object, counter 0. -/
def State.init : State :=
  { file_table := fun _ => none, heap := fun _ => none, brk := 0,
    total_file_opened := 0, trace := [] }

/-- Collaborator answers consumed by one call of the static `open`:
`kmalloc` of the object, the two `vfs_open` invocations (lines 282 and 284;
the first with the vnode it yields), the two `lock_create` invocations
(lines 287 and 289). -/
structure OpenEnv where
  kmalloc : Bool
  vfs_open1 : Int × Nat
  vfs_open2 : Int
  lock_create1 : Option Nat
  lock_create2 : Option Nat

/-- The static function `open` (lines 274-305). The object is allocated at
address `s.brk`; the block allocated there has the size of a pointer, and the
event `store_past_block` marks the field stores of lines 296-301, which reach
beyond it. -/
def static_open (K : Config) (flags : Int) (file_descriptor : Int) (e : OpenEnv)
    (s : State) : Outcome :=
  let s := s.log .kmalloc
  if e.kmalloc = false then .ret K.ENFILE none s
  else
    let s := s.log .vfs_open
    if e.vfs_open1.1 ≠ 0 then
      let s := (s.log .kfree).log .vfs_open
      .ret e.vfs_open2 none s
    else
      let s := (s.log .lock_create).log .lock_create
      match e.lock_create2 with
      | none => .undefined .uninitialised
      | some _ =>
        let s := s.log (.table_write file_descriptor)
        match s.slot K file_descriptor with
        | none => .undefined .out_of_bounds
        | some _ =>
          let s := s.log (.store_past_block s.brk)
          let file : File :=
            { v_ptr := e.vfs_open1.2, open_flags := flags, offset := 0, references := 1,
              flock := e.lock_create1 }
          .ret 0 none
            { ((s.setSlot file_descriptor.toNat (some s.brk)).setFile s.brk (some file)) with
              brk := s.brk + 1 }

/-- The slot search of `sys_open` (lines 54-60): `n` is the number of indices
left before `MAX_PROCESS_OPEN_FILES`; returns the value of `i` after the loop. -/
def sys_open_loop : Nat → Nat → State → Nat × State
  | 0, i, s => (i, s)
  | n + 1, i, s =>
    let s1 := s.log (.table_read i)
    if s.file_table i = none then (i, s1) else sys_open_loop n (i + 1) s1

/-- Collaborator answers consumed by one call of `sys_open`: `kmalloc` of the
path buffer, the two `copyinstr` invocations (lines 48 and 50) and the answers
for the two calls of `open` (lines 73 and 75). -/
structure SysOpenEnv where
  kmalloc : Bool
  copyinstr1 : Int
  copyinstr2 : Int
  open1 : OpenEnv
  open2 : OpenEnv

/-- The system call `sys_open` (lines 31-82); `filename = 0` is the NULL pointer. -/
def sys_open (K : Config) (filename : Nat) (flags : Int) (e : SysOpenEnv) (s : State) :
    Outcome :=
  if filename = 0 then .ret K.EFAULT none s
  else
    let s := s.log .kmalloc
    if e.kmalloc = false then .ret K.ENFILE none s
    else
      let s := s.log .copyinstr
      if e.copyinstr1 ≠ 0 then
        .ret e.copyinstr2 none ((s.log .kfree).log .copyinstr)
      else
        let r := sys_open_loop (K.MAX_PROCESS_OPEN_FILES - 3) 3 s
        let i := r.1
        let s := r.2
        if i = K.MAX_PROCESS_OPEN_FILES then .ret K.EMFILE none (s.log .kfree)
        else if s.total_file_opened ≥ K.MAX_SYSTEM_OPEN_FILES then
          .ret K.ENFILE none (s.log .kfree)
        else
          match static_open K flags i e.open1 s with
          | .undefined u => .undefined u
          | .ret c _ s1 =>
            if c ≠ 0 then static_open K flags i e.open2 (s1.log .kfree)
            else
              .ret 0 (some i) { s1 with total_file_opened := s1.total_file_opened + 1 }

/-- The system call `sys_read` (lines 89-126). `r1` and `r2` are the answers of
the two `VOP_READ` invocations (lines 117 and 119): result and the `uio_offset`
left in the `uio`. -/
def sys_read (K : Config) (filehandler : Int) (r1 r2 : Int × Int) (s : State) : Outcome :=
  let s := s.log (.table_read filehandler)
  if filehandler < 0 ∨ filehandler ≥ (K.MAX_PROCESS_OPEN_FILES : Int) then
    .ret K.EBADF none s
  else
    let s := s.log (.table_read filehandler)
    match s.slot K filehandler with
    | none => .undefined .out_of_bounds
    | some none => .ret K.EBADF none s
    | some (some p) =>
      match s.heap p with
      | none => .undefined .dangling
      | some file =>
        if Int.land file.open_flags K.O_ACCMODE = K.O_WRONLY then .ret K.EBADF none s
        else
          match file.flock with
          | none => .undefined .null_deref
          | some _ =>
            let old_offset := file.offset
            let s := s.log (.VOP_READ file.v_ptr file.offset)
            if r1.1 ≠ 0 then
              .ret r2.1 none (s.log (.VOP_READ file.v_ptr r1.2))
            else
              .ret 0 (some (wrap 32 (r1.2 - old_offset)))
                (s.setFile p (some { file with offset := r1.2 }))

/-- The system call `sys_write` (lines 131-163). `r1` and `r2` are the answers of
the two `VOP_WRITE` invocations (lines 155 and 157). -/
def sys_write (K : Config) (filehandler : Int) (r1 r2 : Int × Int) (s : State) : Outcome :=
  let s := s.log (.table_read filehandler)
  if filehandler < 0 ∨ filehandler ≥ (K.MAX_PROCESS_OPEN_FILES : Int) then
    .ret K.EBADF none s
  else
    let s := s.log (.table_read filehandler)
    match s.slot K filehandler with
    | none => .undefined .out_of_bounds
    | some none => .ret K.EBADF none s
    | some (some p) =>
      match s.heap p with
      | none => .undefined .dangling
      | some file =>
        if Int.land file.open_flags K.O_ACCMODE = K.O_RDONLY then .ret K.EBADF none s
        else
          match file.flock with
          | none => .undefined .null_deref
          | some _ =>
            let old_offset := file.offset
            let s := s.log (.VOP_WRITE file.v_ptr file.offset)
            if r1.1 ≠ 0 then
              .ret r2.1 none (s.log (.VOP_WRITE file.v_ptr r1.2))
            else
              .ret 0 (some (wrap 32 (r1.2 - old_offset)))
                (s.setFile p (some { file with offset := r1.2 }))

/-- The system call `sys_close` (lines 310-338). -/
def sys_close (K : Config) (filehandler : Int) (s : State) : Outcome :=
  if filehandler < 0 ∨ filehandler ≥ (K.MAX_PROCESS_OPEN_FILES : Int) then
    .ret K.EBADF none s
  else
    let s := s.log (.table_read filehandler)
    match s.slot K filehandler with
    | none => .undefined .out_of_bounds
    | some none => .ret K.EBADF none s
    | some (some _) =>
      let s := s.log (.table_read filehandler)
      match s.slot K filehandler with
      | none => .undefined .out_of_bounds
      | some none => .undefined .null_deref
      | some (some p) =>
        match s.heap p with
        | none => .undefined .dangling
        | some file =>
          match file.flock with
          | none => .undefined .null_deref
          | some l =>
            let s := (s.log (.table_write filehandler)).setSlot filehandler.toNat none
            let references := file.references - 1
            if references ≤ 0 then
              let s := ((s.log (.vfs_close file.v_ptr)).log (.lock_destroy l)).log .kfree
              .ret 0 none
                { (s.setFile p none) with total_file_opened := s.total_file_opened - 1 }
            else
              .ret 0 none
                { (s.setFile p (some { file with references := references })) with
                  total_file_opened := s.total_file_opened - 1 }

/-- Lines 190-194 of `sys_dup2`: fetch `curproc->file_table[oldfd]` and increment
the reference count of the object it points to. -/
def sys_dup2_tail (K : Config) (oldfd : Int) (s : State) : Outcome :=
  let s := s.log (.table_read oldfd)
  match s.slot K oldfd with
  | none => .undefined .out_of_bounds
  | some none => .undefined .null_deref
  | some (some p) =>
    match s.heap p with
    | none => .undefined .dangling
    | some fdesc =>
      match fdesc.flock with
      | none => .undefined .null_deref
      | some _ =>
        .ret 0 none (s.setFile p (some { fdesc with references := fdesc.references + 1 }))

/-- The system call `sys_dup2` (lines 168-195). -/
def sys_dup2 (K : Config) (oldfd newfd : Int) (s : State) : Outcome :=
  if oldfd ≥ (K.MAX_PROCESS_OPEN_FILES : Int) ∨ oldfd < 0 ∨
      newfd ≥ (K.MAX_PROCESS_OPEN_FILES : Int) ∨ newfd < 0 then
    .ret K.EBADF none s
  else
    let s := s.log (.table_read oldfd)
    match s.slot K oldfd with
    | none => .undefined .out_of_bounds
    | some none => .ret K.EBADF none s
    | some (some _) =>
      let s := s.log (.table_read newfd)
      match s.slot K newfd with
      | none => .undefined .out_of_bounds
      | some none => sys_dup2_tail K oldfd s
      | some (some _) =>
        match sys_close K newfd s with
        | .undefined u => .undefined u
        | .ret c _ s1 =>
          if c ≠ 0 then sys_close K newfd s1
          else sys_dup2_tail K oldfd s1

/-- Collaborator answers consumed by one call of `sys_lseek`: `VOP_ISSEEKABLE`,
the two `VOP_STAT` invocations (lines 222 and 223; the first with the
`st_size` it reports) and `copyin` of the whence value (result and value). -/
structure LseekEnv where
  VOP_ISSEEKABLE : Bool
  VOP_STAT1 : Int × Int
  VOP_STAT2 : Int
  copyin : Int × Int

/-- The system call `sys_lseek` (lines 201-267). -/
def sys_lseek (K : Config) (fd : Int) (pos : Int) (e : LseekEnv) (s : State) : Outcome :=
  if fd < 0 ∨ fd > (K.MAX_PROCESS_OPEN_FILES : Int) then .ret K.EBADF none s
  else
    let s := s.log (.table_read fd)
    match s.slot K fd with
    | none => .undefined .out_of_bounds
    | some none => .ret K.EBADF none s
    | some (some p) =>
      match s.heap p with
      | none => .undefined .dangling
      | some file =>
        let s := s.log (.VOP_ISSEEKABLE file.v_ptr)
        if e.VOP_ISSEEKABLE = false then .ret K.ESPIPE none s
        else
          let s := s.log (.VOP_STAT file.v_ptr)
          if e.VOP_STAT1.1 ≠ 0 then .ret e.VOP_STAT2 none (s.log (.VOP_STAT file.v_ptr))
          else
            let st_size := e.VOP_STAT1.2
            let s := s.log .copyin
            if e.copyin.1 ≠ 0 then .ret e.copyin.1 none s
            else
              let whence := e.copyin.2
              if whence = K.SEEK_SET then
                if pos < 0 then .ret K.EINVAL none s
                else
                  match file.flock with
                  | none => .undefined .null_deref
                  | some _ =>
                    .ret 0 (some pos) (s.setFile p (some { file with offset := pos }))
              else if whence = K.SEEK_CUR then
                match file.flock with
                | none => .undefined .null_deref
                | some _ =>
                  if wrap 64 (file.offset + pos) < 0 then .ret K.EINVAL none s
                  else
                    .ret 0 (some (wrap 64 (file.offset + pos)))
                      (s.setFile p (some { file with offset := wrap 64 (file.offset + pos) }))
              else if whence = K.SEEK_END then
                if wrap 64 (st_size + pos) < 0 then .ret K.EINVAL none s
                else
                  match file.flock with
                  | none => .undefined .null_deref
                  | some _ =>
                    .ret 0 (some (wrap 64 (st_size + pos)))
                      (s.setFile p (some { file with offset := wrap 64 (st_size + pos) }))
              else .ret K.EINVAL none s

/-- A system call with its arguments and the collaborator answers it consumes. -/
inductive Call where
  | sys_open (filename : Nat) (flags : Int) (e : SysOpenEnv)
  | sys_read (filehandler : Int) (r1 r2 : Int × Int)
  | sys_write (filehandler : Int) (r1 r2 : Int × Int)
  | sys_lseek (fd : Int) (pos : Int) (e : LseekEnv)
  | sys_dup2 (oldfd newfd : Int)
  | sys_close (filehandler : Int)

/-- Run one system call. -/
def exec (K : Config) (c : Call) (s : State) : Outcome :=
  match c with
  | .sys_open filename flags e => sys_open K filename flags e s
  | .sys_read fd r1 r2 => sys_read K fd r1 r2 s
  | .sys_write fd r1 r2 => sys_write K fd r1 r2 s
  | .sys_lseek fd pos e => sys_lseek K fd pos e s
  | .sys_dup2 oldfd newfd => sys_dup2 K oldfd newfd s
  | .sys_close fd => sys_close K fd s

/-- States reachable from the initial state by system calls that return. -/
inductive Reachable (K : Config) : State → Prop
  | init : Reachable K State.init
  | step {s s1 : State} {c : Call} {code : Int} {out : Option Int} :
      Reachable K s → exec K c s = .ret code out s1 → Reachable K s1

/-- Number of descriptor-table slots that point to the object at address `p`. -/
def slot_count (K : Config) (s : State) (p : Nat) : Nat :=
  ((List.range K.MAX_PROCESS_OPEN_FILES).filter
    (fun i => decide (s.file_table i = some p))).length

/-- Number of `vfs_close` invocations on vnode `v` recorded in a trace. -/
def vfs_close_count (v : Nat) (t : List Event) : Nat :=
  t.count (Event.vfs_close v)

/-- Number of `vfs_open` invocations recorded in a trace. -/
def vfs_open_count (t : List Event) : Nat :=
  t.count Event.vfs_open

/-- An instance of the header constants: errno, `O_*` and `SEEK_*` values as in
the OS/161 headers, a descriptor table of 16 slots and a system limit of 64. -/
def Config.sample : Config :=
  { MAX_PROCESS_OPEN_FILES := 16, MAX_SYSTEM_OPEN_FILES := 64,
    EFAULT := 6, ENFILE := 29, EMFILE := 28, EBADF := 30, EINVAL := 8, ESPIPE := 32,
    O_ACCMODE := 3, O_RDONLY := 0, O_WRONLY := 1,
    SEEK_SET := 0, SEEK_CUR := 1, SEEK_END := 2 }

/-- Answers with which one call of `open` succeeds at its first attempt, yielding
vnode `v` and lock `l`. -/
def OpenEnv.ok (v l : Nat) : OpenEnv :=
  { kmalloc := true, vfs_open1 := (0, v), vfs_open2 := 0,
    lock_create1 := some l, lock_create2 := some (l + 1) }

/-- Answers with which `sys_open` succeeds at its first attempt. -/
def SysOpenEnv.ok (v l : Nat) : SysOpenEnv :=
  { kmalloc := true, copyinstr1 := 0, copyinstr2 := 0,
    open1 := OpenEnv.ok v l, open2 := OpenEnv.ok v l }

/-- A state with one open file: slot 3 points to the object at address 0
(vnode 7, flags 2, offset 0, one reference, lock 0); the counter is 1. -/
def State.one_file : State :=
  { file_table := fun i => if i = 3 then some 0 else none,
    heap := fun p => if p = 0 then some ⟨7, 2, 0, 1, some 0⟩ else none,
    brk := 1, total_file_opened := 1, trace := [] }

/-- Answers for `sys_open` in which the first `vfs_open` of the first `open`
fails with code 19 and the re-invocation on line 284 returns 0. -/
def SysOpenEnv.vfs_open_retry : SysOpenEnv :=
  { kmalloc := true, copyinstr1 := 0, copyinstr2 := 0,
    open1 := { kmalloc := true, vfs_open1 := (19, 0), vfs_open2 := 0,
               lock_create1 := some 0, lock_create2 := some 1 },
    open2 := OpenEnv.ok 7 0 }

/-- Answers for `sys_open` in which the first call of `open` fails in `kmalloc`
and the second call of `open` (line 75) succeeds. -/
def SysOpenEnv.open_retry : SysOpenEnv :=
  { kmalloc := true, copyinstr1 := 0, copyinstr2 := 0,
    open1 := { kmalloc := false, vfs_open1 := (0, 7), vfs_open2 := 0,
               lock_create1 := some 0, lock_create2 := some 1 },
    open2 := OpenEnv.ok 7 0 }

/-- The parts of the state that carry the open files: descriptor table, objects
and counter agree. -/
def State.same_files (s s1 : State) : Prop :=
  s1.file_table = s.file_table ∧ s1.heap = s.heap ∧
    s1.total_file_opened = s.total_file_opened

/-- The state `State.one_file` after `sys_close(3)`. -/
def State.one_file_closed : State :=
  { file_table := Function.update State.one_file.file_table 3 none,
    heap := Function.update State.one_file.heap 0 none,
    brk := 1, total_file_opened := 0,
    trace := [.table_read 3, .table_read 3, .table_write 3, .vfs_close 7, .lock_destroy 0,
      .kfree] }

/-- A state in which every slot from 3 on is bound, slot `i` to its own object
at address `i - 3`; the counter stands at 13, below the limit of
`Config.sample`. -/
def State.full_table : State :=
  { file_table := fun i => if 3 ≤ i then some (i - 3) else none,
    heap := fun p => if p < 13 then some ⟨p, 2, 0, 1, some p⟩ else none,
    brk := 13, total_file_opened := 13, trace := [] }

/-- A state with one open file in which the system-wide counter stands at the
limit of `Config.sample`. -/
def State.exhausted : State :=
  { State.one_file with total_file_opened := 64 }

/-- Well-formed descriptor table: every bound slot holds an address handed out
by `kmalloc`, at which a live object with a reference count of at least 1 sits,
and no other slot holds the same address. -/
def State.wf (s : State) : Prop :=
  ∀ i p, s.file_table i = some p →
    p < s.brk ∧ (∃ f, s.heap p = some f ∧ 1 ≤ f.references) ∧
    ∀ j, s.file_table j = some p → j = i

/-- A state with one open file as in `State.one_file`, opened with the given
flags. -/
def State.one_file_flags (flags : Int) : State :=
  { file_table := fun i => if i = 3 then some 0 else none,
    heap := fun p => if p = 0 then some ⟨7, flags, 0, 1, some 0⟩ else none,
    brk := 1, total_file_opened := 1, trace := [] }

/-- Number of `VOP_READ` invocations recorded in a trace. -/
def vop_read_count (t : List Event) : Nat :=
  t.countP (fun ev => match ev with
    | .VOP_READ _ _ => true
    | _ => false)

/-- Number of `VOP_WRITE` invocations recorded in a trace. -/
def vop_write_count (t : List Event) : Nat :=
  t.countP (fun ev => match ev with
    | .VOP_WRITE _ _ => true
    | _ => false)

/-- Number of `VOP_STAT` invocations recorded in a trace. -/
def vop_stat_count (t : List Event) : Nat :=
  t.countP (fun ev => match ev with
    | .VOP_STAT _ => true
    | _ => false)

/-- Number of `copyinstr` invocations recorded in a trace. -/
def copyinstr_count (t : List Event) : Nat :=
  t.count Event.copyinstr

/-- Indices of the descriptor table evaluated according to a trace, reads and
writes alike. -/
def table_accesses (t : List Event) : List Int :=
  t.filterMap (fun ev => match ev with
    | .table_read i => some i
    | .table_write i => some i
    | _ => none)

/-- The values of `off_t`: signed 64-bit integers. -/
def off_t_range (x : Int) : Prop :=
  -(2 : Int) ^ 63 ≤ x ∧ x < (2 : Int) ^ 63

/-- Every live file object has a non-negative offset. -/
def State.offsets_nonneg (s : State) : Prop :=
  ∀ p f, s.heap p = some f → 0 ≤ f.offset

/-- Assumption on the storage collaborator for one call in state `s`: a transfer
never leaves the `uio` at a position below the one it started at (the current
offset of the object behind the descriptor), and `VOP_STAT` never reports a
negative size. -/
def Call.monotone (s : State) : Call → Prop
  | .sys_read fd r1 _ =>
    ∀ p f, s.file_table fd.toNat = some p → s.heap p = some f → f.offset ≤ r1.2
  | .sys_write fd r1 _ =>
    ∀ p f, s.file_table fd.toNat = some p → s.heap p = some f → f.offset ≤ r1.2
  | .sys_lseek _ _ e => 0 ≤ e.VOP_STAT1.2
  | _ => True

/-- States reachable from the initial state by system calls that return, with a
storage collaborator that satisfies `Call.monotone` at every call. -/
inductive ReachableMonotone (K : Config) : State → Prop
  | init : ReachableMonotone K State.init
  | step {s s1 : State} {c : Call} {code : Int} {out : Option Int} :
      ReachableMonotone K s → c.monotone s → exec K c s = .ret code out s1 →
      ReachableMonotone K s1

/-- State after a defined run; the initial state stands in for an undefined one. -/
def Outcome.state (o : Outcome) : State :=
  match o with
  | .ret _ _ s => s
  | .undefined _ => State.init

/-- The state reached from the initial state by a `sys_open` whose collaborator
calls all succeed (descriptor 3, vnode 7, flags 2). -/
def State.opened : State :=
  (sys_open Config.sample 1 2 (SysOpenEnv.ok 7 0) State.init).state

/-- The state reached from `State.opened` by a `sys_write` on descriptor 3 that
transfers 2 bytes. -/
def State.written : State :=
  (sys_write Config.sample 3 (0, 2) (0, 0) State.opened).state

/-- Answers for `sys_open` in which the `lock_create` of line 287, whose result
is stored in `file->flock`, returns NULL and the `lock_create` of line 289,
whose result is tested, returns a lock. -/
def SysOpenEnv.null_lock : SysOpenEnv :=
  { kmalloc := true, copyinstr1 := 0, copyinstr2 := 0,
    open1 := { kmalloc := true, vfs_open1 := (0, 7), vfs_open2 := 0,
               lock_create1 := none, lock_create2 := some 1 },
    open2 := OpenEnv.ok 7 0 }

/-- The state reached from the initial state by a `sys_open` with the answers
`SysOpenEnv.null_lock`: slot 3 points to a live object whose `flock` is NULL. -/
def State.null_lock : State :=
  (sys_open Config.sample 1 2 SysOpenEnv.null_lock State.init).state

/-- Every live file object had its fields stored beyond the block allocated
for it. -/
def State.stored_past_block (s : State) : Prop :=
  ∀ p f, s.heap p = some f → Event.store_past_block p ∈ s.trace

/-! ## Basic facts about the state operations -/

@[simp] theorem State.log_file_table (s : State) (e : Event) :
    (s.log e).file_table = s.file_table := rfl

@[simp] theorem State.log_heap (s : State) (e : Event) : (s.log e).heap = s.heap := rfl

@[simp] theorem State.log_brk (s : State) (e : Event) : (s.log e).brk = s.brk := rfl

@[simp] theorem State.log_total (s : State) (e : Event) :
    (s.log e).total_file_opened = s.total_file_opened := rfl

@[simp] theorem State.log_trace (s : State) (e : Event) :
    (s.log e).trace = s.trace ++ [e] := rfl

@[simp] theorem State.slot_log (K : Config) (s : State) (e : Event) (i : Int) :
    (s.log e).slot K i = s.slot K i := rfl

theorem State.slot_in_range (K : Config) (s : State) (i : Int) (h0 : 0 ≤ i)
    (h1 : i < (K.MAX_PROCESS_OPEN_FILES : Int)) :
    s.slot K i = some (s.file_table i.toNat) := by
  simp [State.slot, h0, h1]

/-! ## Failing inputs of the duplicate-descriptor path -/

/-- C1: on a state whose slot 3 is bound and whose slot 4 is empty,
`sys_dup2(3, 4)` returns 0 and raises the reference count of the object from 1
to 2, but slot 4 is still empty afterwards: the new descriptor is never bound. -/
theorem sys_dup2_leaves_new_fd_empty :
    ∃ s1, sys_dup2 Config.sample 3 4 State.one_file = .ret 0 none s1 ∧
      s1.file_table 3 = some 0 ∧ s1.file_table 4 = none ∧
      (s1.heap 0).map (fun f => f.references) = some 2 ∧
      (State.one_file.heap 0).map (fun f => f.references) = some 1 :=
  ⟨_, rfl, rfl, rfl, rfl, rfl⟩

/-- C2: the state reached from the initial state by a successful `sys_open`
(descriptor 3) followed by `sys_dup2(3, 4)` holds a live object whose
`references` field is 2 while exactly one slot points to it. -/
theorem reachable_references_exceed_slots :
    ∃ s, Reachable Config.sample s ∧
      (s.heap 0).map (fun f => f.references) = some 2 ∧
      slot_count Config.sample s 0 = 1 := by
  refine ⟨_, Reachable.step (c := Call.sys_dup2 3 4)
    (Reachable.step (c := Call.sys_open 1 2 (SysOpenEnv.ok 7 0)) Reachable.init rfl) rfl,
    rfl, ?_⟩
  decide

/-- C3: for n = 1, after `sys_open` returned descriptor 3 and `sys_dup2(3, 4)`
returned 0 the reference count is 2; `sys_close(3)` then succeeds, `sys_close(4)`
fails with EBADF, and after both calls the vnode has not been closed. -/
theorem dup2_then_close_never_closes_vnode :
    ∃ s1 s2 s3 s4,
      sys_open Config.sample 1 2 (SysOpenEnv.ok 7 0) State.init = .ret 0 (some 3) s1 ∧
      sys_dup2 Config.sample 3 4 s1 = .ret 0 none s2 ∧
      (s2.heap 0).map (fun f => f.references) = some 2 ∧
      sys_close Config.sample 3 s2 = .ret 0 none s3 ∧
      sys_close Config.sample 4 s3 = .ret Config.sample.EBADF none s4 ∧
      (s4.heap 0).map (fun f => f.v_ptr) = some 7 ∧
      vfs_close_count 7 s4.trace = 0 :=
  ⟨_, _, _, _, rfl, rfl, rfl, rfl, rfl, rfl, by decide⟩

/-- C4: on a state whose slot 3 is bound, `sys_dup2(3, 3)` closes descriptor 3
and then dereferences the NULL pointer it reads back from the emptied slot. -/
theorem sys_dup2_same_fd_null_deref :
    sys_dup2 Config.sample 3 3 State.one_file = .undefined .null_deref ∧
    ∃ s1, sys_close Config.sample 3 State.one_file = .ret 0 none s1 ∧
      s1.file_table 3 = none ∧ s1.heap 0 = none ∧
      s1.total_file_opened = 0 ∧ vfs_close_count 7 s1.trace = 1 :=
  ⟨rfl, _, rfl, rfl, rfl, rfl, by decide⟩

/-! ## Operations on a closed or invalid descriptor -/

theorem sys_close_success_inv (K : Config) (hE : K.EBADF ≠ 0) (d : Int) (s s1 : State)
    (o : Option Int) (h : sys_close K d s = .ret 0 o s1) :
    0 ≤ d ∧ d < (K.MAX_PROCESS_OPEN_FILES : Int) ∧ s1.file_table d.toNat = none := by
  unfold sys_close at h
  split at h
  · simp at h
    exact absurd h.1 hE
  · rename_i hr
    push_neg at hr
    refine ⟨hr.1, hr.2, ?_⟩
    simp only [State.slot_log, State.slot_in_range K s d hr.1 hr.2] at h
    split at h
    · simp at h
    · simp at h
      exact absurd h.1 hE
    · split at h
      · simp at h
      · simp at h
      · split at h
        · simp at h
        · split at h
          · simp at h
          · split at h
            · simp at h
              obtain ⟨-, h⟩ := h
              subst h
              simp [State.setFile, State.setSlot]
            · simp at h
              obtain ⟨-, h⟩ := h
              subst h
              simp [State.setFile, State.setSlot]


theorem sys_read_empty_slot (K : Config) (d : Int) (r1 r2 : Int × Int) (s : State)
    (h0 : 0 ≤ d) (h1 : d < (K.MAX_PROCESS_OPEN_FILES : Int))
    (he : s.file_table d.toNat = none) :
    sys_read K d r1 r2 s =
      .ret K.EBADF none ((s.log (.table_read d)).log (.table_read d)) := by
  have hr : ¬ (d < 0 ∨ d ≥ (K.MAX_PROCESS_OPEN_FILES : Int)) := by omega
  simp [sys_read, hr, State.slot_in_range K s d h0 h1, he]

theorem sys_write_empty_slot (K : Config) (d : Int) (r1 r2 : Int × Int) (s : State)
    (h0 : 0 ≤ d) (h1 : d < (K.MAX_PROCESS_OPEN_FILES : Int))
    (he : s.file_table d.toNat = none) :
    sys_write K d r1 r2 s =
      .ret K.EBADF none ((s.log (.table_read d)).log (.table_read d)) := by
  have hr : ¬ (d < 0 ∨ d ≥ (K.MAX_PROCESS_OPEN_FILES : Int)) := by omega
  simp [sys_write, hr, State.slot_in_range K s d h0 h1, he]

theorem sys_close_empty_slot (K : Config) (d : Int) (s : State)
    (h0 : 0 ≤ d) (h1 : d < (K.MAX_PROCESS_OPEN_FILES : Int))
    (he : s.file_table d.toNat = none) :
    sys_close K d s = .ret K.EBADF none (s.log (.table_read d)) := by
  have hr : ¬ (d < 0 ∨ d ≥ (K.MAX_PROCESS_OPEN_FILES : Int)) := by omega
  simp [sys_close, hr, State.slot_in_range K s d h0 h1, he]

theorem sys_lseek_empty_slot (K : Config) (d pos : Int) (e : LseekEnv) (s : State)
    (h0 : 0 ≤ d) (h1 : d < (K.MAX_PROCESS_OPEN_FILES : Int))
    (he : s.file_table d.toNat = none) :
    sys_lseek K d pos e s = .ret K.EBADF none (s.log (.table_read d)) := by
  have hr : ¬ (d < 0 ∨ d > (K.MAX_PROCESS_OPEN_FILES : Int)) := by omega
  simp [sys_lseek, hr, State.slot_in_range K s d h0 h1, he]

theorem sys_dup2_empty_old (K : Config) (d x : Int) (s : State)
    (h0 : 0 ≤ d) (h1 : d < (K.MAX_PROCESS_OPEN_FILES : Int))
    (he : s.file_table d.toNat = none) :
    (sys_dup2 K d x s).code? = some K.EBADF := by
  unfold sys_dup2
  split
  · rfl
  · simp [State.slot_in_range K s d h0 h1, he, Outcome.code?]

/-- C5: if `sys_close(d)` returns 0 (with EBADF a non-zero code), then in the
resulting state `sys_read(d, ..)`, `sys_write(d, ..)`, `sys_lseek(d, ..)`,
`sys_close(d)` and `sys_dup2(d, x)` for every `x` all return EBADF, whatever
the collaborators answer. -/
theorem close_then_EBADF (K : Config) (hE : K.EBADF ≠ 0) (d : Int) (s s1 : State)
    (o : Option Int) (h : sys_close K d s = .ret 0 o s1) :
    (∀ r1 r2, (sys_read K d r1 r2 s1).code? = some K.EBADF) ∧
    (∀ r1 r2, (sys_write K d r1 r2 s1).code? = some K.EBADF) ∧
    (∀ pos e, (sys_lseek K d pos e s1).code? = some K.EBADF) ∧
    (sys_close K d s1).code? = some K.EBADF ∧
    (∀ x, (sys_dup2 K d x s1).code? = some K.EBADF) := by
  obtain ⟨h0, h1, he⟩ := sys_close_success_inv K hE d s s1 o h
  refine ⟨fun r1 r2 => ?_, fun r1 r2 => ?_, fun pos e => ?_, ?_, fun x => ?_⟩
  · rw [sys_read_empty_slot K d r1 r2 s1 h0 h1 he]; rfl
  · rw [sys_write_empty_slot K d r1 r2 s1 h0 h1 he]; rfl
  · rw [sys_lseek_empty_slot K d pos e s1 h0 h1 he]; rfl
  · rw [sys_close_empty_slot K d s1 h0 h1 he]; rfl
  · exact sys_dup2_empty_old K d x s1 h0 h1 he

/-- Witness for C5: closing descriptor 3 of `State.one_file` succeeds and every
later operation on descriptor 3 returns EBADF. -/
theorem close_then_EBADF_witness :
    Config.sample.EBADF ≠ 0 ∧
    sys_close Config.sample 3 State.one_file = .ret 0 none State.one_file_closed ∧
    ((∀ r1 r2, (sys_read Config.sample 3 r1 r2 State.one_file_closed).code? =
        some Config.sample.EBADF) ∧
     (∀ r1 r2, (sys_write Config.sample 3 r1 r2 State.one_file_closed).code? =
        some Config.sample.EBADF) ∧
     (∀ pos e, (sys_lseek Config.sample 3 pos e State.one_file_closed).code? =
        some Config.sample.EBADF) ∧
     (sys_close Config.sample 3 State.one_file_closed).code? = some Config.sample.EBADF ∧
     (∀ x, (sys_dup2 Config.sample 3 x State.one_file_closed).code? =
        some Config.sample.EBADF)) :=
  ⟨by decide, rfl,
    close_then_EBADF Config.sample (by decide) 3 State.one_file State.one_file_closed none rfl⟩

/-- C6: `sys_lseek` called with `fd = MAX_PROCESS_OPEN_FILES` passes the range
check of line 209 (`fd > MAX_PROCESS_OPEN_FILES`) and then uses the value of
`curproc->file_table[MAX_PROCESS_OPEN_FILES]`, one element past the table, so
it does not return EBADF; shown for every configuration and state, and at the
sample configuration with 16 slots. -/
theorem sys_lseek_at_capacity (K : Config) (pos : Int) (e : LseekEnv) (s : State) :
    sys_lseek K (K.MAX_PROCESS_OPEN_FILES : Int) pos e s = .undefined .out_of_bounds ∧
    sys_lseek Config.sample 16 0 ⟨true, (0, 0), 0, (0, 0)⟩ State.one_file =
      .undefined .out_of_bounds := by
  constructor
  · have hr : ¬ ((K.MAX_PROCESS_OPEN_FILES : Int) < 0 ∨
        (K.MAX_PROCESS_OPEN_FILES : Int) > (K.MAX_PROCESS_OPEN_FILES : Int)) := by omega
    simp [sys_lseek, hr, State.slot]
  · rfl

/-- Every other case of C6 holds: a descriptor that is out of range or whose
slot is empty makes `sys_read`, `sys_write`, `sys_close`, `sys_dup2` (as old
descriptor, or out of range as new descriptor) and, except at
`fd = MAX_PROCESS_OPEN_FILES`, `sys_lseek` return EBADF with table, objects
and counter unchanged. -/
theorem invalid_descriptor_rejected (K : Config) (fd : Int) (s : State)
    (h : fd < 0 ∨ (K.MAX_PROCESS_OPEN_FILES : Int) ≤ fd ∨ s.file_table fd.toNat = none) :
    (∀ r1 r2, ∃ s1, sys_read K fd r1 r2 s = .ret K.EBADF none s1 ∧ s.same_files s1) ∧
    (∀ r1 r2, ∃ s1, sys_write K fd r1 r2 s = .ret K.EBADF none s1 ∧ s.same_files s1) ∧
    (fd ≠ (K.MAX_PROCESS_OPEN_FILES : Int) →
      ∀ pos e, ∃ s1, sys_lseek K fd pos e s = .ret K.EBADF none s1 ∧ s.same_files s1) ∧
    (∃ s1, sys_close K fd s = .ret K.EBADF none s1 ∧ s.same_files s1) ∧
    (∀ x, ∃ s1, sys_dup2 K fd x s = .ret K.EBADF none s1 ∧ s.same_files s1) ∧
    ((fd < 0 ∨ (K.MAX_PROCESS_OPEN_FILES : Int) ≤ fd) →
      ∀ x, ∃ s1, sys_dup2 K x fd s = .ret K.EBADF none s1 ∧ s.same_files s1) := by
  by_cases hr : fd < 0 ∨ (K.MAX_PROCESS_OPEN_FILES : Int) ≤ fd
  · refine ⟨fun r1 r2 => ?_, fun r1 r2 => ?_, fun hne pos e => ?_, ?_, fun x => ?_,
      fun _ x => ?_⟩
    · exact ⟨s.log (.table_read fd), by simp [sys_read, hr], rfl, rfl, rfl⟩
    · exact ⟨s.log (.table_read fd), by simp [sys_write, hr], rfl, rfl, rfl⟩
    · have hr2 : fd < 0 ∨ fd > (K.MAX_PROCESS_OPEN_FILES : Int) := by omega
      exact ⟨_, by simp [sys_lseek, hr2], rfl, rfl, rfl⟩
    · exact ⟨s, by simp [sys_close, hr], rfl, rfl, rfl⟩
    · have hr2 : fd ≥ (K.MAX_PROCESS_OPEN_FILES : Int) ∨ fd < 0 ∨
          x ≥ (K.MAX_PROCESS_OPEN_FILES : Int) ∨ x < 0 := by omega
      exact ⟨_, by rw [sys_dup2, if_pos hr2], rfl, rfl, rfl⟩
    · have hr2 : x ≥ (K.MAX_PROCESS_OPEN_FILES : Int) ∨ x < 0 ∨
          fd ≥ (K.MAX_PROCESS_OPEN_FILES : Int) ∨ fd < 0 := by omega
      exact ⟨_, by rw [sys_dup2, if_pos hr2], rfl, rfl, rfl⟩
  · have h0 : 0 ≤ fd := by omega
    have h1 : fd < (K.MAX_PROCESS_OPEN_FILES : Int) := by omega
    have he : s.file_table fd.toNat = none := by
      rcases h with h | h | h
      · omega
      · omega
      · exact h
    refine ⟨fun r1 r2 => ?_, fun r1 r2 => ?_, fun _ pos e => ?_, ?_, fun x => ?_,
      fun hx => absurd hx hr⟩
    · exact ⟨_, sys_read_empty_slot K fd r1 r2 s h0 h1 he, rfl, rfl, rfl⟩
    · exact ⟨_, sys_write_empty_slot K fd r1 r2 s h0 h1 he, rfl, rfl, rfl⟩
    · exact ⟨_, sys_lseek_empty_slot K fd pos e s h0 h1 he, rfl, rfl, rfl⟩
    · exact ⟨_, sys_close_empty_slot K fd s h0 h1 he, rfl, rfl, rfl⟩
    · unfold sys_dup2
      split
      · exact ⟨_, rfl, rfl, rfl, rfl⟩
      · simp only [State.slot_log, State.slot_in_range K s fd h0 h1, he]
        exact ⟨_, rfl, rfl, rfl, rfl⟩

/-! ## Closing a bound descriptor -/

theorem sys_close_live (K : Config) (fd : Int) (s : State) (p : Nat) (file : File) (l : Nat)
    (h0 : 0 ≤ fd) (h1 : fd < (K.MAX_PROCESS_OPEN_FILES : Int))
    (hslot : s.file_table fd.toNat = some p) (hheap : s.heap p = some file)
    (hlock : file.flock = some l) :
    sys_close K fd s =
      if file.references - 1 ≤ 0 then
        .ret 0 none
          { file_table := Function.update s.file_table fd.toNat none,
            heap := Function.update s.heap p none,
            brk := s.brk,
            total_file_opened := s.total_file_opened - 1,
            trace := s.trace ++ [.table_read fd] ++ [.table_read fd] ++ [.table_write fd] ++
              [.vfs_close file.v_ptr] ++ [.lock_destroy l] ++ [.kfree] }
      else
        .ret 0 none
          { file_table := Function.update s.file_table fd.toNat none,
            heap := Function.update s.heap p
              (some { file with references := file.references - 1 }),
            brk := s.brk,
            total_file_opened := s.total_file_opened - 1,
            trace := s.trace ++ [.table_read fd] ++ [.table_read fd] ++ [.table_write fd] } := by
  have hr : ¬ (fd < 0 ∨ fd ≥ (K.MAX_PROCESS_OPEN_FILES : Int)) := by omega
  simp only [sys_close, hr, State.slot_log, State.log_heap, State.slot_in_range K s fd h0 h1,
    hslot, hheap, hlock, if_false]
  split <;> simp [State.setFile, State.setSlot, State.log, hlock]

/-- What `sys_close` does when the object has a lock: for a descriptor `fd` in
range whose slot points to a live object with a non-NULL lock and a reference
count of at least 1, `sys_close(fd)` returns 0; slot
`fd` becomes empty and every other slot is unchanged; every other object is
unchanged; if the decremented count is zero the object is freed and its vnode
closed once, otherwise the object stays with its count decreased by one and no
vnode is closed; `total_file_opened` decreases by one in both cases. -/
theorem sys_close_bound (K : Config) (fd : Int) (s : State) (p : Nat) (file : File) (l : Nat)
    (h0 : 0 ≤ fd) (h1 : fd < (K.MAX_PROCESS_OPEN_FILES : Int))
    (hslot : s.file_table fd.toNat = some p) (hheap : s.heap p = some file)
    (hlock : file.flock = some l) (href : 1 ≤ file.references) :
    ∃ s1, sys_close K fd s = .ret 0 none s1 ∧
      s1.file_table fd.toNat = none ∧
      (∀ j, j ≠ fd.toNat → s1.file_table j = s.file_table j) ∧
      (∀ q, q ≠ p → s1.heap q = s.heap q) ∧
      (file.references - 1 = 0 →
        s1.heap p = none ∧
        vfs_close_count file.v_ptr s1.trace = vfs_close_count file.v_ptr s.trace + 1) ∧
      (file.references - 1 ≠ 0 →
        s1.heap p = some { file with references := file.references - 1 } ∧
        ∀ v, vfs_close_count v s1.trace = vfs_close_count v s.trace) ∧
      s1.total_file_opened = s.total_file_opened - 1 := by
  rw [sys_close_live K fd s p file l h0 h1 hslot hheap hlock]
  by_cases hz : file.references - 1 ≤ 0
  · have hz0 : file.references - 1 = 0 := by omega
    rw [if_pos hz]
    refine ⟨_, rfl, ?_, ?_, ?_, ?_, ?_, rfl⟩
    · simp
    · intro j hj
      simp [Function.update_noteq hj]
    · intro q hq
      simp [Function.update_noteq hq]
    · intro _
      simp [vfs_close_count, List.count_append]
    · intro hne
      exact absurd hz0 hne
  · have hz0 : file.references - 1 ≠ 0 := by omega
    rw [if_neg hz]
    refine ⟨_, rfl, ?_, ?_, ?_, ?_, ?_, rfl⟩
    · simp
    · intro j hj
      simp [Function.update_noteq hj]
    · intro q hq
      simp [Function.update_noteq hq]
    · intro he
      exact absurd he hz0
    · intro _
      simp [vfs_close_count, List.count_append]

/-- The previous statement at descriptor 3 of `State.one_file`. -/
theorem sys_close_bound_witness :
    (0 : Int) ≤ 3 ∧ (3 : Int) < (Config.sample.MAX_PROCESS_OPEN_FILES : Int) ∧
    State.one_file.file_table (3 : Int).toNat = some 0 ∧
    State.one_file.heap 0 = some ⟨7, 2, 0, 1, some 0⟩ ∧
    (⟨7, 2, 0, 1, some 0⟩ : File).flock = some 0 ∧
    1 ≤ (⟨7, 2, 0, 1, some 0⟩ : File).references ∧
    ∃ s1, sys_close Config.sample 3 State.one_file = .ret 0 none s1 ∧
      s1.file_table (3 : Int).toNat = none ∧
      (∀ j, j ≠ (3 : Int).toNat → s1.file_table j = State.one_file.file_table j) ∧
      (∀ q, q ≠ 0 → s1.heap q = State.one_file.heap q) ∧
      ((1 : Int) - 1 = 0 →
        s1.heap 0 = none ∧
        vfs_close_count 7 s1.trace = vfs_close_count 7 State.one_file.trace + 1) ∧
      ((1 : Int) - 1 ≠ 0 →
        s1.heap 0 = some { (⟨7, 2, 0, 1, some 0⟩ : File) with references := 1 - 1 } ∧
        ∀ v, vfs_close_count v s1.trace = vfs_close_count v State.one_file.trace) ∧
      s1.total_file_opened = State.one_file.total_file_opened - 1 :=
  ⟨by decide, by decide, rfl, rfl, rfl, by decide,
    sys_close_bound Config.sample 3 State.one_file 0 ⟨7, 2, 0, 1, some 0⟩ 0
      (by decide) (by decide) rfl rfl rfl (by decide)⟩

/-! ## The duplicate-descriptor call in general -/

/-- For every state: `sys_dup2` onto an empty slot returns 0 and increments the
reference count of the object behind `oldfd`; the descriptor table is left as
it was, so slot `newfd` stays empty. -/
theorem sys_dup2_onto_empty (K : Config) (oldfd newfd : Int) (s : State) (p : Nat)
    (file : File) (l : Nat)
    (ho0 : 0 ≤ oldfd) (ho1 : oldfd < (K.MAX_PROCESS_OPEN_FILES : Int))
    (hn0 : 0 ≤ newfd) (hn1 : newfd < (K.MAX_PROCESS_OPEN_FILES : Int))
    (hold : s.file_table oldfd.toNat = some p) (hnew : s.file_table newfd.toNat = none)
    (hheap : s.heap p = some file) (hlock : file.flock = some l) :
    sys_dup2 K oldfd newfd s =
      .ret 0 none
        { file_table := s.file_table,
          heap := Function.update s.heap p
            (some { file with references := file.references + 1 }),
          brk := s.brk,
          total_file_opened := s.total_file_opened,
          trace := s.trace ++ [.table_read oldfd] ++ [.table_read newfd] ++
            [.table_read oldfd] } := by
  have hr : ¬ (oldfd ≥ (K.MAX_PROCESS_OPEN_FILES : Int) ∨ oldfd < 0 ∨
      newfd ≥ (K.MAX_PROCESS_OPEN_FILES : Int) ∨ newfd < 0) := by omega
  simp only [sys_dup2, sys_dup2_tail, hr, State.slot_log, State.log_heap,
    State.slot_in_range K s oldfd ho0 ho1, State.slot_in_range K s newfd hn0 hn1,
    hold, hnew, hheap, hlock, if_false]
  simp [State.setFile, State.log, hlock]

/-- For every state: `sys_dup2(fd, fd)` on a bound descriptor closes it and then
dereferences the NULL pointer read back from the slot. -/
theorem sys_dup2_same_fd (K : Config) (fd : Int) (s : State) (p : Nat) (file : File)
    (l : Nat) (h0 : 0 ≤ fd) (h1 : fd < (K.MAX_PROCESS_OPEN_FILES : Int))
    (hslot : s.file_table fd.toNat = some p) (hheap : s.heap p = some file)
    (hlock : file.flock = some l) :
    sys_dup2 K fd fd s = .undefined .null_deref := by
  have hr : ¬ (fd ≥ (K.MAX_PROCESS_OPEN_FILES : Int) ∨ fd < 0 ∨
      fd ≥ (K.MAX_PROCESS_OPEN_FILES : Int) ∨ fd < 0) := by omega
  have hc := sys_close_live K fd ((s.log (.table_read fd)).log (.table_read fd)) p file l
    h0 h1 hslot hheap hlock
  by_cases hz : file.references - 1 ≤ 0
  · rw [if_pos hz] at hc
    simp [sys_dup2, hr, State.slot_in_range K s fd h0 h1, hslot, hc, sys_dup2_tail,
      State.slot, h0, h1]
  · rw [if_neg hz] at hc
    simp [sys_dup2, hr, State.slot_in_range K s fd h0 h1, hslot, hc, sys_dup2_tail,
      State.slot, h0, h1]

/-! ## Opening a file -/

/-- C8: when the first `vfs_open` of `open` fails and its re-invocation on line
284 returns 0, `sys_open` returns 0 and stores descriptor 3, and the counter
goes from 0 to 1, but slot 3 is still empty and no file object exists. -/
theorem sys_open_binds_nothing_after_vfs_open_retry :
    ∃ s1, sys_open Config.sample 1 2 SysOpenEnv.vfs_open_retry State.init =
        .ret 0 (some 3) s1 ∧
      s1.file_table 3 = none ∧ (∀ p, s1.heap p = none) ∧
      s1.total_file_opened = 1 ∧ vfs_open_count s1.trace = 2 :=
  ⟨_, rfl, rfl, fun _ => rfl, rfl, by decide⟩

theorem sys_open_loop_frame (n i : Nat) (s : State) :
    (sys_open_loop n i s).2.file_table = s.file_table ∧
    (sys_open_loop n i s).2.heap = s.heap ∧
    (sys_open_loop n i s).2.brk = s.brk ∧
    (sys_open_loop n i s).2.total_file_opened = s.total_file_opened ∧
    vfs_open_count (sys_open_loop n i s).2.trace = vfs_open_count s.trace := by
  induction n generalizing i s with
  | zero => exact ⟨rfl, rfl, rfl, rfl, rfl⟩
  | succ n ih =>
    unfold sys_open_loop
    by_cases he : s.file_table i = none
    · simp [he, vfs_open_count, List.count_append]
    · obtain ⟨a, b, c, d, t⟩ := ih (i + 1) (s.log (.table_read i))
      simp only [he, if_false]
      refine ⟨a, b, c, d, ?_⟩
      rw [t]
      simp [vfs_open_count, List.count_append]

theorem sys_open_loop_index (n i : Nat) (s : State) :
    i ≤ (sys_open_loop n i s).1 ∧ (sys_open_loop n i s).1 ≤ i + n ∧
    (∀ j, i ≤ j → j < (sys_open_loop n i s).1 → s.file_table j ≠ none) ∧
    ((sys_open_loop n i s).1 < i + n → s.file_table (sys_open_loop n i s).1 = none) := by
  induction n generalizing i s with
  | zero =>
    refine ⟨Nat.le_refl _, Nat.le_refl _, fun j h1 h2 => ?_, fun h => ?_⟩
    · simp only [sys_open_loop] at h2
      omega
    · simp only [sys_open_loop] at h
      omega
  | succ n ih =>
    unfold sys_open_loop
    by_cases he : s.file_table i = none
    · simp only [he, if_true]
      refine ⟨Nat.le_refl _, by omega, fun j h1 h2 => by omega, fun _ => trivial⟩
    · obtain ⟨a, b, c, d⟩ := ih (i + 1) (s.log (.table_read i))
      simp only [he, if_false]
      refine ⟨by omega, by omega, fun j h1 h2 => ?_, fun h => ?_⟩
      · by_cases hj : j = i
        · subst hj
          exact he
        · exact c j (by omega) h2
      · exact d (by omega)

/-- C9: for a call of `sys_open` whose path copy succeeds (non-NULL pointer,
buffer allocated, first `copyinstr` returns 0) on a table of at least 3 slots:
if no slot in `[3, MAX_PROCESS_OPEN_FILES)` is empty the call returns EMFILE,
whatever the counter; if some such slot is empty and
`total_file_opened >= MAX_SYSTEM_OPEN_FILES` it returns ENFILE; in both cases
table, objects and counter are unchanged and `vfs_open` is not invoked. -/
theorem sys_open_table_full (K : Config) (filename : Nat) (flags : Int) (e : SysOpenEnv)
    (s : State) (hK : 3 ≤ K.MAX_PROCESS_OPEN_FILES) (hf : filename ≠ 0)
    (hk : e.kmalloc = true) (hc : e.copyinstr1 = 0) :
    ((∀ i, 3 ≤ i → i < K.MAX_PROCESS_OPEN_FILES → s.file_table i ≠ none) →
      ∃ s1, sys_open K filename flags e s = .ret K.EMFILE none s1 ∧
        s1.file_table = s.file_table ∧ s1.heap = s.heap ∧
        s1.total_file_opened = s.total_file_opened ∧
        vfs_open_count s1.trace = vfs_open_count s.trace) ∧
    ((∃ i, 3 ≤ i ∧ i < K.MAX_PROCESS_OPEN_FILES ∧ s.file_table i = none) →
      K.MAX_SYSTEM_OPEN_FILES ≤ s.total_file_opened →
      ∃ s1, sys_open K filename flags e s = .ret K.ENFILE none s1 ∧
        s1.file_table = s.file_table ∧ s1.heap = s.heap ∧
        s1.total_file_opened = s.total_file_opened ∧
        vfs_open_count s1.trace = vfs_open_count s.trace) := by
  obtain ⟨fa, fb, -, fd, ft⟩ := sys_open_loop_frame (K.MAX_PROCESS_OPEN_FILES - 3) 3
    ((s.log .kmalloc).log .copyinstr)
  obtain ⟨ia, ib, ic, id⟩ := sys_open_loop_index (K.MAX_PROCESS_OPEN_FILES - 3) 3
    ((s.log .kmalloc).log .copyinstr)
  have ht : vfs_open_count ((s.log .kmalloc).log .copyinstr).trace = vfs_open_count s.trace := by
    simp [vfs_open_count, List.count_append]
  constructor
  · intro hfull
    have hi : (sys_open_loop (K.MAX_PROCESS_OPEN_FILES - 3) 3
        ((s.log .kmalloc).log .copyinstr)).1 = K.MAX_PROCESS_OPEN_FILES := by
      by_contra hne
      have hlt : (sys_open_loop (K.MAX_PROCESS_OPEN_FILES - 3) 3
          ((s.log .kmalloc).log .copyinstr)).1 < K.MAX_PROCESS_OPEN_FILES := by omega
      exact hfull _ ia hlt (id (by omega))
    refine ⟨((sys_open_loop (K.MAX_PROCESS_OPEN_FILES - 3) 3
        ((s.log .kmalloc).log .copyinstr)).2).log .kfree, ?_, fa, fb, fd, ?_⟩
    · simp [sys_open, hf, hk, hc, hi]
    · rw [State.log_trace, ← ht, ← ft]
      simp [vfs_open_count, List.count_append]
  · intro hex hsys
    obtain ⟨i0, h3, hlt, hnone⟩ := hex
    have hi : (sys_open_loop (K.MAX_PROCESS_OPEN_FILES - 3) 3
        ((s.log .kmalloc).log .copyinstr)).1 ≠ K.MAX_PROCESS_OPEN_FILES := by
      intro heq
      exact ic i0 h3 (by omega) hnone
    refine ⟨((sys_open_loop (K.MAX_PROCESS_OPEN_FILES - 3) 3
        ((s.log .kmalloc).log .copyinstr)).2).log .kfree, ?_, fa, fb, fd, ?_⟩
    · have hsys2 : K.MAX_SYSTEM_OPEN_FILES ≤ (sys_open_loop (K.MAX_PROCESS_OPEN_FILES - 3) 3
          ((s.log .kmalloc).log .copyinstr)).2.total_file_opened := by
        rw [fd]; exact hsys
      simp [sys_open, hf, hk, hc, hi, hsys2]
    · rw [State.log_trace, ← ht, ← ft]
      simp [vfs_open_count, List.count_append]

/-- Witness for C9: on `State.full_table` the call returns EMFILE, on
`State.exhausted` it returns ENFILE. -/
theorem sys_open_table_full_witness :
    3 ≤ Config.sample.MAX_PROCESS_OPEN_FILES ∧ (1 : Nat) ≠ 0 ∧
    (SysOpenEnv.ok 7 0).kmalloc = true ∧ (SysOpenEnv.ok 7 0).copyinstr1 = 0 ∧
    (∃ s1, sys_open Config.sample 1 2 (SysOpenEnv.ok 7 0) State.full_table =
        .ret Config.sample.EMFILE none s1 ∧
      s1.file_table = State.full_table.file_table ∧ s1.heap = State.full_table.heap ∧
      s1.total_file_opened = State.full_table.total_file_opened ∧
      vfs_open_count s1.trace = vfs_open_count State.full_table.trace) ∧
    (∃ s1, sys_open Config.sample 1 2 (SysOpenEnv.ok 7 0) State.exhausted =
        .ret Config.sample.ENFILE none s1 ∧
      s1.file_table = State.exhausted.file_table ∧ s1.heap = State.exhausted.heap ∧
      s1.total_file_opened = State.exhausted.total_file_opened ∧
      vfs_open_count s1.trace = vfs_open_count State.exhausted.trace) :=
  ⟨by decide, by decide, rfl, rfl,
    (sys_open_table_full Config.sample 1 2 (SysOpenEnv.ok 7 0) State.full_table
      (by decide) (by decide) rfl rfl).1 (fun i h3 _ => by simp [State.full_table, h3]),
    (sys_open_table_full Config.sample 1 2 (SysOpenEnv.ok 7 0) State.exhausted
      (by decide) (by decide) rfl rfl).2 ⟨4, by decide, by decide, rfl⟩ (by decide)⟩

theorem static_open_stores_nothing (K : Config) (flags : Int) (fd : Int) (e : OpenEnv)
    (s s1 : State) (c : Int) (o : Option Int)
    (h : static_open K flags fd e s = .ret c o s1) : o = none := by
  unfold static_open at h
  split at h
  · simp at h; exact h.2.1.symm
  · split at h
    · simp at h; exact h.2.1.symm
    · split at h
      · simp at h
      · simp only [State.slot_log] at h
        split at h
        · simp at h
        · simp at h; exact h.2.1.symm

/-- Whenever `sys_open` stores a descriptor through `retVal`, it returned 0 and
the descriptor is the least index `i` with `3 <= i < MAX_PROCESS_OPEN_FILES`
whose slot was empty before the call. -/
theorem sys_open_stored_descriptor (K : Config) (filename : Nat) (flags : Int)
    (e : SysOpenEnv) (s s1 : State) (c d : Int)
    (hK : 3 ≤ K.MAX_PROCESS_OPEN_FILES)
    (h : sys_open K filename flags e s = .ret c (some d) s1) :
    c = 0 ∧ ∃ i : Nat, d = (i : Int) ∧ 3 ≤ i ∧ i < K.MAX_PROCESS_OPEN_FILES ∧
      s.file_table i = none ∧ ∀ j, 3 ≤ j → j < i → s.file_table j ≠ none := by
  obtain ⟨ia, ib, ic, id⟩ := sys_open_loop_index (K.MAX_PROCESS_OPEN_FILES - 3) 3
    ((s.log .kmalloc).log .copyinstr)
  unfold sys_open at h
  split at h
  · simp at h
  · split at h
    · simp at h
    · split at h
      · simp at h
      · simp only at h
        split at h
        · simp at h
        · rename_i hne
          split at h
          · simp at h
          · split at h
            · simp at h
            · rename_i c1 o1 s2 hso
              split at h
              · have := static_open_stores_nothing _ _ _ _ _ _ _ _ h
                simp at this
              · simp only [Outcome.ret.injEq, Option.some.injEq] at h
                refine ⟨h.1.symm, _, h.2.1.symm, ia, by omega, id (by omega), ?_⟩
                intro j h3 hj
                exact ic j h3 hj

/-- When no collaborator call of the first attempt fails, `sys_open` returns 0,
stores the least empty index `i >= 3`, binds slot `i` to a new object with
offset 0, reference count 1 and the given flags, leaves the other slots and
objects alone and increments the counter. -/
theorem sys_open_first_attempt (K : Config) (filename : Nat) (flags : Int) (e : SysOpenEnv)
    (s : State) (l2 : Nat) (hK : 3 ≤ K.MAX_PROCESS_OPEN_FILES) (hf : filename ≠ 0)
    (hk : e.kmalloc = true) (hc : e.copyinstr1 = 0)
    (hex : ∃ i, 3 ≤ i ∧ i < K.MAX_PROCESS_OPEN_FILES ∧ s.file_table i = none)
    (hsys : s.total_file_opened < K.MAX_SYSTEM_OPEN_FILES)
    (hk1 : e.open1.kmalloc = true) (hv : e.open1.vfs_open1.1 = 0)
    (hl : e.open1.lock_create2 = some l2) :
    ∃ (i : Nat) (s1 : State), sys_open K filename flags e s = .ret 0 (some (i : Int)) s1 ∧
      3 ≤ i ∧ i < K.MAX_PROCESS_OPEN_FILES ∧ s.file_table i = none ∧
      (∀ j, 3 ≤ j → j < i → s.file_table j ≠ none) ∧
      s1.file_table i = some s.brk ∧
      s1.heap s.brk = some ⟨e.open1.vfs_open1.2, flags, 0, 1, e.open1.lock_create1⟩ ∧
      (∀ j, j ≠ i → s1.file_table j = s.file_table j) ∧
      (∀ q, q ≠ s.brk → s1.heap q = s.heap q) ∧
      s1.total_file_opened = s.total_file_opened + 1 := by
  obtain ⟨fa, fb, fc, fd, -⟩ := sys_open_loop_frame (K.MAX_PROCESS_OPEN_FILES - 3) 3
    ((s.log .kmalloc).log .copyinstr)
  obtain ⟨ia, ib, ic, id⟩ := sys_open_loop_index (K.MAX_PROCESS_OPEN_FILES - 3) 3
    ((s.log .kmalloc).log .copyinstr)
  generalize hr : sys_open_loop (K.MAX_PROCESS_OPEN_FILES - 3) 3
    ((s.log .kmalloc).log .copyinstr) = r at fa fb fc fd ia ib ic id
  replace fa : r.2.file_table = s.file_table := fa
  replace fb : r.2.heap = s.heap := fb
  replace fc : r.2.brk = s.brk := fc
  replace fd : r.2.total_file_opened = s.total_file_opened := fd
  replace ic : ∀ j, 3 ≤ j → j < r.1 → s.file_table j ≠ none := ic
  replace id : r.1 < 3 + (K.MAX_PROCESS_OPEN_FILES - 3) → s.file_table r.1 = none := id
  obtain ⟨i0, h3, hlt, hnone⟩ := hex
  have hi : r.1 ≠ K.MAX_PROCESS_OPEN_FILES := by
    intro heq
    exact ic i0 h3 (by omega) hnone
  have hlt2 : r.1 < K.MAX_PROCESS_OPEN_FILES := by omega
  have hsys2 : ¬ (r.2.total_file_opened ≥ K.MAX_SYSTEM_OPEN_FILES) := by
    rw [fd]; omega
  have hslot : r.2.slot K (r.1 : Int) = some (r.2.file_table r.1) := by
    rw [State.slot_in_range K r.2 (r.1 : Int) (by omega) (by omega)]
    simp
  have hso : static_open K flags (r.1 : Int) e.open1 r.2 =
      .ret 0 none
        { file_table := Function.update r.2.file_table r.1 (some r.2.brk),
          heap := Function.update r.2.heap r.2.brk
            (some ⟨e.open1.vfs_open1.2, flags, 0, 1, e.open1.lock_create1⟩),
          brk := r.2.brk + 1,
          total_file_opened := r.2.total_file_opened,
          trace := r.2.trace ++ [.kmalloc] ++ [.vfs_open] ++ [.lock_create] ++ [.lock_create] ++
            [.table_write (r.1 : Int)] ++ [.store_past_block r.2.brk] } := by
    simp only [static_open, hk1, hv, hl, State.slot_log, hslot]
    simp [State.setFile, State.setSlot, State.log]
  refine ⟨r.1,
    { file_table := Function.update r.2.file_table r.1 (some r.2.brk),
      heap := Function.update r.2.heap r.2.brk
        (some ⟨e.open1.vfs_open1.2, flags, 0, 1, e.open1.lock_create1⟩),
      brk := r.2.brk + 1,
      total_file_opened := r.2.total_file_opened + 1,
      trace := r.2.trace ++ [.kmalloc] ++ [.vfs_open] ++ [.lock_create] ++ [.lock_create] ++
        [.table_write (r.1 : Int)] ++ [.store_past_block r.2.brk] },
    ?_, ia, hlt2, id (by omega), ic, ?_, ?_, ?_, ?_, ?_⟩
  · simp only [sys_open, hf, hk, hc, hr, hi, hsys2, hso, if_false]
    simp
  · simp [fc]
  · show Function.update r.2.heap r.2.brk _ s.brk = _
    rw [fc]
    simp
  · intro j hj
    simp [Function.update_noteq hj, fa]
  · intro q hq
    show Function.update r.2.heap r.2.brk _ q = _
    rw [fc, Function.update_noteq hq, fb]
  · simp [fd]

/-- C10: when the first call of `open` fails (here in `kmalloc`) and the second
call of `open` on line 75 returns 0, `sys_open` returns 0 without storing any
descriptor through `retVal`, although slot 3 has been bound; the counter is
not incremented either. -/
theorem sys_open_success_without_descriptor :
    ∃ s1, sys_open Config.sample 1 2 SysOpenEnv.open_retry State.init = .ret 0 none s1 ∧
      s1.file_table 3 = some 0 ∧ s1.total_file_opened = 0 :=
  ⟨_, rfl, rfl, rfl⟩

/-! ## Well-formed descriptor tables are preserved by every call -/

theorem State.wf_of_eq (s s1 : State) (ht : s1.file_table = s.file_table)
    (hh : s1.heap = s.heap) (hb : s1.brk = s.brk) (h : s.wf) : s1.wf := by
  intro i p hi
  rw [ht] at hi
  obtain ⟨a, b, c⟩ := h i p hi
  rw [hh, hb, ht]
  exact ⟨a, b, c⟩

theorem State.wf_update_heap (s s1 : State) (p : Nat) (f1 : File)
    (ht : s1.file_table = s.file_table)
    (hh : s1.heap = Function.update s.heap p (some f1)) (hb : s1.brk = s.brk)
    (hr : 1 ≤ f1.references) (h : s.wf) : s1.wf := by
  intro i q hi
  rw [ht] at hi
  obtain ⟨a, ⟨f, hf, hf1⟩, c⟩ := h i q hi
  rw [hh, hb, ht]
  refine ⟨a, ?_, c⟩
  by_cases hq : q = p
  · subst hq
    exact ⟨f1, by simp, hr⟩
  · exact ⟨f, by simp [Function.update_noteq hq, hf], hf1⟩

theorem State.wf_clear_slot (s s1 : State) (i p : Nat) (hs : s.file_table i = some p)
    (ht : s1.file_table = Function.update s.file_table i none)
    (hh : ∀ q, q ≠ p → s1.heap q = s.heap q) (hb : s1.brk = s.brk) (h : s.wf) :
    s1.wf := by
  intro j q hj
  rw [ht] at hj
  have hji : j ≠ i := by
    intro heq
    subst heq
    simp at hj
  rw [Function.update_noteq hji] at hj
  obtain ⟨a, ⟨f, hf, hf1⟩, c⟩ := h j q hj
  have hqp : q ≠ p := by
    intro heq
    subst heq
    exact hji ((h i q hs).2.2 j hj)
  rw [hb, ht]
  refine ⟨a, ⟨f, by rw [hh q hqp]; exact hf, hf1⟩, ?_⟩
  intro k hk
  by_cases hki : k = i
  · subst hki
    simp at hk
  · rw [Function.update_noteq hki] at hk
    exact c k hk

theorem State.wf_bind_fresh (s s1 : State) (i : Nat) (f : File)
    (ht : s1.file_table = Function.update s.file_table i (some s.brk))
    (hh : s1.heap = Function.update s.heap s.brk (some f)) (hb : s1.brk = s.brk + 1)
    (hr : 1 ≤ f.references) (h : s.wf) : s1.wf := by
  intro j q hj
  rw [ht] at hj
  by_cases hji : j = i
  · subst hji
    simp at hj
    subst hj
    rw [hb, hh, ht]
    refine ⟨by omega, ⟨f, by simp, hr⟩, ?_⟩
    intro k hk
    by_cases hkj : k = j
    · exact hkj
    · rw [Function.update_noteq hkj] at hk
      have := (h k s.brk hk).1
      omega
  · rw [Function.update_noteq hji] at hj
    obtain ⟨a, ⟨g, hg, hg1⟩, c⟩ := h j q hj
    have hq : q ≠ s.brk := by omega
    rw [hb, hh, ht]
    refine ⟨by omega, ⟨g, by simp [Function.update_noteq hq, hg], hg1⟩, ?_⟩
    intro k hk
    by_cases hki : k = i
    · subst hki
      simp at hk
      omega
    · rw [Function.update_noteq hki] at hk
      exact c k hk


theorem State.slot_eq_some (K : Config) (s : State) (i : Int) (v : Option Nat)
    (h : s.slot K i = some v) :
    s.file_table i.toNat = v ∧ 0 ≤ i ∧ i < (K.MAX_PROCESS_OPEN_FILES : Int) := by
  unfold State.slot at h
  split at h
  · rename_i hr
    simp at h
    exact ⟨h, hr.1, hr.2⟩
  · simp at h

theorem sys_read_wf (K : Config) (fd : Int) (r1 r2 : Int × Int) (s s1 : State) (c : Int)
    (o : Option Int) (hw : s.wf) (h : sys_read K fd r1 r2 s = .ret c o s1) : s1.wf := by
  unfold sys_read at h
  simp only [State.slot_log, State.log_heap] at h
  split at h
  · simp only [Outcome.ret.injEq] at h
    obtain ⟨-, -, rfl⟩ := h
    exact State.wf_of_eq _ _ rfl rfl rfl hw
  · split at h
    · simp at h
    · simp only [Outcome.ret.injEq] at h
      obtain ⟨-, -, rfl⟩ := h
      exact State.wf_of_eq _ _ rfl rfl rfl hw
    · rename_i p hp
      split at h
      · simp at h
      · rename_i file hfile
        split at h
        · simp only [Outcome.ret.injEq] at h
          obtain ⟨-, -, rfl⟩ := h
          exact State.wf_of_eq _ _ rfl rfl rfl hw
        · split at h
          · simp at h
          · split at h
            · simp only [Outcome.ret.injEq] at h
              obtain ⟨-, -, rfl⟩ := h
              exact State.wf_of_eq _ _ rfl rfl rfl hw
            · simp only [Outcome.ret.injEq] at h
              obtain ⟨-, -, rfl⟩ := h
              obtain ⟨-, ⟨g, hg, hg1⟩, -⟩ := hw _ p (State.slot_eq_some K s fd _ hp).1
              rw [hfile] at hg
              simp only [Option.some.injEq] at hg
              subst hg
              exact State.wf_update_heap s _ p _ rfl rfl rfl hg1 hw


theorem sys_write_wf (K : Config) (fd : Int) (r1 r2 : Int × Int) (s s1 : State) (c : Int)
    (o : Option Int) (hw : s.wf) (h : sys_write K fd r1 r2 s = .ret c o s1) : s1.wf := by
  unfold sys_write at h
  simp only [State.slot_log, State.log_heap] at h
  split at h
  · simp only [Outcome.ret.injEq] at h
    obtain ⟨-, -, rfl⟩ := h
    exact State.wf_of_eq _ _ rfl rfl rfl hw
  · split at h
    · simp at h
    · simp only [Outcome.ret.injEq] at h
      obtain ⟨-, -, rfl⟩ := h
      exact State.wf_of_eq _ _ rfl rfl rfl hw
    · rename_i p hp
      split at h
      · simp at h
      · rename_i file hfile
        split at h
        · simp only [Outcome.ret.injEq] at h
          obtain ⟨-, -, rfl⟩ := h
          exact State.wf_of_eq _ _ rfl rfl rfl hw
        · split at h
          · simp at h
          · split at h
            · simp only [Outcome.ret.injEq] at h
              obtain ⟨-, -, rfl⟩ := h
              exact State.wf_of_eq _ _ rfl rfl rfl hw
            · simp only [Outcome.ret.injEq] at h
              obtain ⟨-, -, rfl⟩ := h
              obtain ⟨-, ⟨g, hg, hg1⟩, -⟩ := hw _ p (State.slot_eq_some K s fd _ hp).1
              rw [hfile] at hg
              simp only [Option.some.injEq] at hg
              subst hg
              exact State.wf_update_heap s _ p _ rfl rfl rfl hg1 hw

theorem sys_lseek_wf (K : Config) (fd pos : Int) (e : LseekEnv) (s s1 : State) (c : Int)
    (o : Option Int) (hw : s.wf) (h : sys_lseek K fd pos e s = .ret c o s1) : s1.wf := by
  unfold sys_lseek at h
  simp only [State.slot_log, State.log_heap] at h
  split at h
  · simp only [Outcome.ret.injEq] at h
    obtain ⟨-, -, rfl⟩ := h
    exact hw
  · split at h
    · simp at h
    · simp only [Outcome.ret.injEq] at h
      obtain ⟨-, -, rfl⟩ := h
      exact State.wf_of_eq _ _ rfl rfl rfl hw
    · rename_i p hp
      split at h
      · simp at h
      · rename_i file hfile
        have hrefs : 1 ≤ file.references := by
          obtain ⟨-, ⟨g, hg, hg1⟩, -⟩ := hw _ p (State.slot_eq_some K s fd _ hp).1
          rw [hfile] at hg
          simp only [Option.some.injEq] at hg
          subst hg
          exact hg1
        split at h
        · simp only [Outcome.ret.injEq] at h
          obtain ⟨-, -, rfl⟩ := h
          exact State.wf_of_eq _ _ rfl rfl rfl hw
        · split at h
          · simp only [Outcome.ret.injEq] at h
            obtain ⟨-, -, rfl⟩ := h
            exact State.wf_of_eq _ _ rfl rfl rfl hw
          · split at h
            · simp only [Outcome.ret.injEq] at h
              obtain ⟨-, -, rfl⟩ := h
              exact State.wf_of_eq _ _ rfl rfl rfl hw
            · split at h
              · split at h
                · simp only [Outcome.ret.injEq] at h
                  obtain ⟨-, -, rfl⟩ := h
                  exact State.wf_of_eq _ _ rfl rfl rfl hw
                · split at h
                  · simp at h
                  · simp only [Outcome.ret.injEq] at h
                    obtain ⟨-, -, rfl⟩ := h
                    exact State.wf_update_heap s _ p _ rfl rfl rfl hrefs hw
              · split at h
                · split at h
                  · simp at h
                  · split at h
                    · simp only [Outcome.ret.injEq] at h
                      obtain ⟨-, -, rfl⟩ := h
                      exact State.wf_of_eq _ _ rfl rfl rfl hw
                    · simp only [Outcome.ret.injEq] at h
                      obtain ⟨-, -, rfl⟩ := h
                      exact State.wf_update_heap s _ p _ rfl rfl rfl hrefs hw
                · split at h
                  · split at h
                    · simp only [Outcome.ret.injEq] at h
                      obtain ⟨-, -, rfl⟩ := h
                      exact State.wf_of_eq _ _ rfl rfl rfl hw
                    · split at h
                      · simp at h
                      · simp only [Outcome.ret.injEq] at h
                        obtain ⟨-, -, rfl⟩ := h
                        exact State.wf_update_heap s _ p _ rfl rfl rfl hrefs hw
                  · simp only [Outcome.ret.injEq] at h
                    obtain ⟨-, -, rfl⟩ := h
                    exact State.wf_of_eq _ _ rfl rfl rfl hw

theorem sys_close_wf (K : Config) (fd : Int) (s s1 : State) (c : Int)
    (o : Option Int) (hw : s.wf) (h : sys_close K fd s = .ret c o s1) : s1.wf := by
  unfold sys_close at h
  simp only [State.slot_log, State.log_heap] at h
  split at h
  · simp only [Outcome.ret.injEq] at h
    obtain ⟨-, -, rfl⟩ := h
    exact hw
  · split at h
    · simp at h
    · simp only [Outcome.ret.injEq] at h
      obtain ⟨-, -, rfl⟩ := h
      exact State.wf_of_eq _ _ rfl rfl rfl hw
    · rename_i p0 hp0
      split at h
      · simp at h
      · simp at h
      · rename_i p hp
        simp only [Option.some.injEq] at hp
        subst hp
        have hs := (State.slot_eq_some K s fd _ hp0).1
        split at h
        · simp at h
        · rename_i file hfile
          split at h
          · simp at h
          · split at h
            · simp only [Outcome.ret.injEq] at h
              obtain ⟨-, -, rfl⟩ := h
              refine State.wf_clear_slot s _ fd.toNat p0 hs rfl ?_ rfl hw
              intro q hq
              simp [State.setFile, State.setSlot, Function.update_noteq hq]
            · simp only [Outcome.ret.injEq] at h
              obtain ⟨-, -, rfl⟩ := h
              refine State.wf_clear_slot s _ fd.toNat p0 hs rfl ?_ rfl hw
              intro q hq
              simp [State.setFile, State.setSlot, Function.update_noteq hq]

theorem sys_dup2_tail_wf (K : Config) (fd : Int) (s s1 : State) (c : Int)
    (o : Option Int) (hw : s.wf) (h : sys_dup2_tail K fd s = .ret c o s1) : s1.wf := by
  unfold sys_dup2_tail at h
  simp only [State.slot_log, State.log_heap] at h
  split at h
  · simp at h
  · simp at h
  · rename_i p hp
    split at h
    · simp at h
    · rename_i file hfile
      split at h
      · simp at h
      · simp only [Outcome.ret.injEq] at h
        obtain ⟨-, -, rfl⟩ := h
        obtain ⟨-, ⟨g, hg, hg1⟩, -⟩ := hw _ p (State.slot_eq_some K s fd _ hp).1
        rw [hfile] at hg
        simp only [Option.some.injEq] at hg
        subst hg
        refine State.wf_update_heap s _ p _ rfl rfl rfl ?_ hw
        show (1 : Int) ≤ _ + 1
        omega

theorem sys_dup2_wf (K : Config) (oldfd newfd : Int) (s s1 : State) (c : Int)
    (o : Option Int) (hw : s.wf) (h : sys_dup2 K oldfd newfd s = .ret c o s1) : s1.wf := by
  unfold sys_dup2 at h
  simp only [State.slot_log] at h
  split at h
  · simp only [Outcome.ret.injEq] at h
    obtain ⟨-, -, rfl⟩ := h
    exact hw
  · split at h
    · simp at h
    · simp only [Outcome.ret.injEq] at h
      obtain ⟨-, -, rfl⟩ := h
      exact State.wf_of_eq _ _ rfl rfl rfl hw
    · split at h
      · simp at h
      · exact sys_dup2_tail_wf K oldfd ((s.log (.table_read oldfd)).log (.table_read newfd)) s1 c o (State.wf_of_eq s _ rfl rfl rfl hw) h
      · split at h
        · simp at h
        · rename_i c1 o1 s2 hcl
          have hw2 : s2.wf :=
            sys_close_wf K newfd ((s.log (.table_read oldfd)).log (.table_read newfd)) s2 c1 o1
              (State.wf_of_eq s _ rfl rfl rfl hw) hcl
          split at h
          · exact sys_close_wf K newfd s2 s1 c o hw2 h
          · exact sys_dup2_tail_wf K oldfd s2 s1 c o hw2 h


theorem static_open_wf (K : Config) (flags fd : Int) (e : OpenEnv) (s s1 : State) (c : Int)
    (o : Option Int) (hw : s.wf) (h : static_open K flags fd e s = .ret c o s1) : s1.wf := by
  unfold static_open at h
  simp only [State.slot_log] at h
  split at h
  · simp only [Outcome.ret.injEq] at h
    obtain ⟨-, -, rfl⟩ := h
    exact State.wf_of_eq _ _ rfl rfl rfl hw
  · split at h
    · simp only [Outcome.ret.injEq] at h
      obtain ⟨-, -, rfl⟩ := h
      exact State.wf_of_eq _ _ rfl rfl rfl hw
    · split at h
      · simp at h
      · split at h
        · simp at h
        · simp only [Outcome.ret.injEq] at h
          obtain ⟨-, -, rfl⟩ := h
          exact State.wf_bind_fresh s _ fd.toNat _ rfl rfl rfl (Int.le_refl 1) hw

theorem sys_open_wf (K : Config) (filename : Nat) (flags : Int) (e : SysOpenEnv)
    (s s1 : State) (c : Int) (o : Option Int) (hw : s.wf)
    (h : sys_open K filename flags e s = .ret c o s1) : s1.wf := by
  obtain ⟨fa, fb, fc, -, -⟩ := sys_open_loop_frame (K.MAX_PROCESS_OPEN_FILES - 3) 3
    ((s.log .kmalloc).log .copyinstr)
  have hwl : (sys_open_loop (K.MAX_PROCESS_OPEN_FILES - 3) 3
      ((s.log .kmalloc).log .copyinstr)).2.wf := State.wf_of_eq s _ fa fb fc hw
  unfold sys_open at h
  split at h
  · simp only [Outcome.ret.injEq] at h
    obtain ⟨-, -, rfl⟩ := h
    exact hw
  · split at h
    · simp only [Outcome.ret.injEq] at h
      obtain ⟨-, -, rfl⟩ := h
      exact State.wf_of_eq _ _ rfl rfl rfl hw
    · split at h
      · simp only [Outcome.ret.injEq] at h
        obtain ⟨-, -, rfl⟩ := h
        exact State.wf_of_eq _ _ rfl rfl rfl hw
      · simp only at h
        split at h
        · simp only [Outcome.ret.injEq] at h
          obtain ⟨-, -, rfl⟩ := h
          exact State.wf_of_eq _ _ rfl rfl rfl hwl
        · split at h
          · simp only [Outcome.ret.injEq] at h
            obtain ⟨-, -, rfl⟩ := h
            exact State.wf_of_eq _ _ rfl rfl rfl hwl
          · split at h
            · simp at h
            · rename_i c1 o1 s2 hso
              have hw2 : s2.wf := static_open_wf K flags _ e.open1 _ s2 c1 o1 hwl hso
              split at h
              · exact static_open_wf K flags _ e.open2 (s2.log .kfree) s1 c o
                  (State.wf_of_eq s2 _ rfl rfl rfl hw2) h
              · simp only [Outcome.ret.injEq] at h
                obtain ⟨-, -, rfl⟩ := h
                exact State.wf_of_eq s2 _ rfl rfl rfl hw2

/-- In every reachable state each bound slot points to a live object with a
reference count of at least 1, and no two slots point to the same object. -/
theorem Reachable.wf (K : Config) (s : State) (h : Reachable K s) : s.wf := by
  induction h with
  | init =>
    intro i p hi
    simp [State.init] at hi
  | @step s0 s2 call code out _ hex ih =>
    cases call with
    | sys_open filename flags e => exact sys_open_wf K filename flags e s0 s2 code out ih hex
    | sys_read fd r1 r2 => exact sys_read_wf K fd r1 r2 s0 s2 code out ih hex
    | sys_write fd r1 r2 => exact sys_write_wf K fd r1 r2 s0 s2 code out ih hex
    | sys_lseek fd pos e => exact sys_lseek_wf K fd pos e s0 s2 code out ih hex
    | sys_dup2 oldfd newfd => exact sys_dup2_wf K oldfd newfd s0 s2 code out ih hex
    | sys_close fd => exact sys_close_wf K fd s0 s2 code out ih hex

/-! ## Transfers: `sys_read` and `sys_write` on a bound descriptor -/

theorem wrap_64_of_range (x : Int) (h0 : -(2 : Int) ^ 63 ≤ x) (h1 : x < (2 : Int) ^ 63) :
    wrap 64 x = x := by
  unfold wrap
  norm_num at h0 h1 ⊢
  omega

theorem wrap_64_overflow (x : Int) (h0 : (2 : Int) ^ 63 ≤ x) (h1 : x < (2 : Int) ^ 64) :
    wrap 64 x = x - (2 : Int) ^ 64 := by
  unfold wrap
  norm_num at h0 h1 ⊢
  omega

theorem wrap_32_of_range (x : Int) (h0 : -(2 : Int) ^ 31 ≤ x) (h1 : x < (2 : Int) ^ 31) :
    wrap 32 x = x := by
  unfold wrap
  norm_num at h0 h1 ⊢
  omega

/-- The result of `sys_read` on a descriptor in range whose slot points to a live
object with a lock and whose access mode is not `O_WRONLY`. -/
theorem sys_read_live (K : Config) (fd : Int) (r1 r2 : Int × Int) (s : State) (p : Nat)
    (file : File) (l : Nat) (h0 : 0 ≤ fd) (h1 : fd < (K.MAX_PROCESS_OPEN_FILES : Int))
    (hslot : s.file_table fd.toNat = some p) (hheap : s.heap p = some file)
    (hlock : file.flock = some l)
    (hmode : Int.land file.open_flags K.O_ACCMODE ≠ K.O_WRONLY) :
    sys_read K fd r1 r2 s =
      if r1.1 ≠ 0 then
        .ret r2.1 none
          { s with trace := s.trace ++ [.table_read fd] ++ [.table_read fd] ++
              [.VOP_READ file.v_ptr file.offset] ++ [.VOP_READ file.v_ptr r1.2] }
      else
        .ret 0 (some (wrap 32 (r1.2 - file.offset)))
          { s with
            heap := Function.update s.heap p (some { file with offset := r1.2 }),
            trace := s.trace ++ [.table_read fd] ++ [.table_read fd] ++
              [.VOP_READ file.v_ptr file.offset] } := by
  have hr : ¬ (fd < 0 ∨ fd ≥ (K.MAX_PROCESS_OPEN_FILES : Int)) := by omega
  simp only [sys_read, hr, State.slot_log, State.log_heap, State.slot_in_range K s fd h0 h1,
    hslot, hheap, hlock, hmode, if_false]
  split <;> simp [State.setFile, State.log]

/-- The result of `sys_write` on a descriptor in range whose slot points to a
live object with a lock and whose access mode is not `O_RDONLY`. -/
theorem sys_write_live (K : Config) (fd : Int) (r1 r2 : Int × Int) (s : State) (p : Nat)
    (file : File) (l : Nat) (h0 : 0 ≤ fd) (h1 : fd < (K.MAX_PROCESS_OPEN_FILES : Int))
    (hslot : s.file_table fd.toNat = some p) (hheap : s.heap p = some file)
    (hlock : file.flock = some l)
    (hmode : Int.land file.open_flags K.O_ACCMODE ≠ K.O_RDONLY) :
    sys_write K fd r1 r2 s =
      if r1.1 ≠ 0 then
        .ret r2.1 none
          { s with trace := s.trace ++ [.table_read fd] ++ [.table_read fd] ++
              [.VOP_WRITE file.v_ptr file.offset] ++ [.VOP_WRITE file.v_ptr r1.2] }
      else
        .ret 0 (some (wrap 32 (r1.2 - file.offset)))
          { s with
            heap := Function.update s.heap p (some { file with offset := r1.2 }),
            trace := s.trace ++ [.table_read fd] ++ [.table_read fd] ++
              [.VOP_WRITE file.v_ptr file.offset] } := by
  have hr : ¬ (fd < 0 ∨ fd ≥ (K.MAX_PROCESS_OPEN_FILES : Int)) := by omega
  simp only [sys_write, hr, State.slot_log, State.log_heap, State.slot_in_range K s fd h0 h1,
    hslot, hheap, hlock, hmode, if_false]
  split <;> simp [State.setFile, State.log]

/-- When the first transfer succeeds and moves `k` bytes from the current offset
(`k` a value of `int`), `sys_read` and `sys_write` return 0, store `k` and leave
the object at offset `old + k`. -/
theorem transfer_success (K : Config) (fd : Int) (r2 : Int × Int) (k : Int) (s : State)
    (p : Nat) (file : File) (l : Nat)
    (h0 : 0 ≤ fd) (h1 : fd < (K.MAX_PROCESS_OPEN_FILES : Int))
    (hslot : s.file_table fd.toNat = some p) (hheap : s.heap p = some file)
    (hlock : file.flock = some l)
    (hk0 : -(2 : Int) ^ 31 ≤ k) (hk1 : k < (2 : Int) ^ 31) :
    (Int.land file.open_flags K.O_ACCMODE ≠ K.O_WRONLY →
      ∃ s1, sys_read K fd (0, file.offset + k) r2 s = .ret 0 (some k) s1 ∧
        s1.heap p = some { file with offset := file.offset + k } ∧
        s1.file_table = s.file_table) ∧
    (Int.land file.open_flags K.O_ACCMODE ≠ K.O_RDONLY →
      ∃ s1, sys_write K fd (0, file.offset + k) r2 s = .ret 0 (some k) s1 ∧
        s1.heap p = some { file with offset := file.offset + k } ∧
        s1.file_table = s.file_table) := by
  have hw : wrap 32 (file.offset + k - file.offset) = k := by
    rw [show file.offset + k - file.offset = k by omega]
    exact wrap_32_of_range k hk0 hk1
  constructor
  · intro hmode
    rw [sys_read_live K fd _ r2 s p file l h0 h1 hslot hheap hlock hmode]
    simp only [ne_eq, not_true_eq_false, if_false, hw]
    exact ⟨_, rfl, by simp, rfl⟩
  · intro hmode
    rw [sys_write_live K fd _ r2 s p file l h0 h1 hslot hheap hlock hmode]
    simp only [ne_eq, not_true_eq_false, if_false, hw]
    exact ⟨_, rfl, by simp, rfl⟩

/-- The scenario of the specification on a fresh read-write file at descriptor 3:
a write of 2 bytes returns 2 and leaves offset 2, `lseek(3, 0, SEEK_SET)`
returns 0, a read of 2 bytes returns 2 and leaves offset 2. -/
theorem scenario_write_seek_read :
    ∃ s1 s2 s3,
      sys_write Config.sample 3 (0, 2) (0, 0) State.one_file = .ret 0 (some 2) s1 ∧
      (s1.heap 0).map (fun f => f.offset) = some 2 ∧
      sys_lseek Config.sample 3 0 ⟨true, (0, 2), 0, (0, 0)⟩ s1 = .ret 0 (some 0) s2 ∧
      (s2.heap 0).map (fun f => f.offset) = some 0 ∧
      sys_read Config.sample 3 (0, 2) (0, 0) s2 = .ret 0 (some 2) s3 ∧
      (s3.heap 0).map (fun f => f.offset) = some 2 :=
  ⟨_, _, _, rfl, rfl, rfl, rfl, rfl, rfl⟩

/-- C11: on a bound read-write descriptor at offset 0, when the `VOP_READ` of
line 117 fails with error 33 and its re-invocation on line 119 returns 0,
`sys_read` returns 0 and not the error of the failed transfer; the same holds
for `sys_write` (lines 155 and 157). The offset is unchanged in both cases. -/
theorem transfer_error_not_returned :
    (∃ s1, sys_read Config.sample 3 (33, 0) (0, 2) State.one_file = .ret 0 none s1 ∧
      (s1.heap 0).map (fun f => f.offset) = some 0) ∧
    (∃ s1, sys_write Config.sample 3 (33, 0) (0, 2) State.one_file = .ret 0 none s1 ∧
      (s1.heap 0).map (fun f => f.offset) = some 0) :=
  ⟨⟨_, rfl, rfl⟩, ⟨_, rfl, rfl⟩⟩

/-! ## Access modes -/

/-- C12, as stated, fails: on a descriptor opened read-only (flags 0) `sys_write`
returns EBADF, the bad-descriptor code itself, and no other error code. -/
theorem sys_write_read_only_not_distinct_error :
    ¬ ∃ c, (sys_write Config.sample 3 (0, 2) (0, 0) (State.one_file_flags 0)).code? = some c ∧
      c ≠ Config.sample.EBADF := by
  rintro ⟨c, h, hc⟩
  have h2 : (sys_write Config.sample 3 (0, 2) (0, 0) (State.one_file_flags 0)).code? =
      some Config.sample.EBADF := rfl
  rw [h2] at h
  exact hc (Option.some.inj h).symm

/-- C12, amended: for a descriptor in range whose slot points to a live object,
`sys_write` on a read-only object and `sys_read` on a write-only object return
EBADF, leave table and objects (hence the offset) unchanged and do not invoke
the storage transfer; on an object that is neither (read-write), with a lock,
both calls go on to invoke the storage transfer and return 0 when it
succeeds. -/
theorem access_mode_check (K : Config) (fd : Int) (r1 r2 : Int × Int) (s : State) (p : Nat)
    (file : File) (h0 : 0 ≤ fd) (h1 : fd < (K.MAX_PROCESS_OPEN_FILES : Int))
    (hslot : s.file_table fd.toNat = some p) (hheap : s.heap p = some file) :
    (Int.land file.open_flags K.O_ACCMODE = K.O_RDONLY →
      ∃ s1, sys_write K fd r1 r2 s = .ret K.EBADF none s1 ∧
        s1.heap = s.heap ∧ s1.file_table = s.file_table ∧
        vop_write_count s1.trace = vop_write_count s.trace) ∧
    (Int.land file.open_flags K.O_ACCMODE = K.O_WRONLY →
      ∃ s1, sys_read K fd r1 r2 s = .ret K.EBADF none s1 ∧
        s1.heap = s.heap ∧ s1.file_table = s.file_table ∧
        vop_read_count s1.trace = vop_read_count s.trace) ∧
    (Int.land file.open_flags K.O_ACCMODE ≠ K.O_RDONLY →
      Int.land file.open_flags K.O_ACCMODE ≠ K.O_WRONLY →
      ∀ l, file.flock = some l →
      (∃ c o s1, sys_read K fd r1 r2 s = .ret c o s1 ∧
        vop_read_count s.trace < vop_read_count s1.trace ∧ (r1.1 = 0 → c = 0)) ∧
      (∃ c o s1, sys_write K fd r1 r2 s = .ret c o s1 ∧
        vop_write_count s.trace < vop_write_count s1.trace ∧ (r1.1 = 0 → c = 0))) := by
  have hr : ¬ (fd < 0 ∨ fd ≥ (K.MAX_PROCESS_OPEN_FILES : Int)) := by omega
  refine ⟨fun hm => ?_, fun hm => ?_, fun hm1 hm2 l hlock => ⟨?_, ?_⟩⟩
  · refine ⟨(s.log (.table_read fd)).log (.table_read fd), ?_, rfl, rfl, ?_⟩
    · simp [sys_write, hr, State.slot_in_range K s fd h0 h1, hslot, hheap, hm]
    · simp [vop_write_count, List.countP_append]
  · refine ⟨(s.log (.table_read fd)).log (.table_read fd), ?_, rfl, rfl, ?_⟩
    · simp [sys_read, hr, State.slot_in_range K s fd h0 h1, hslot, hheap, hm]
    · simp [vop_read_count, List.countP_append]
  · rw [sys_read_live K fd r1 r2 s p file l h0 h1 hslot hheap hlock hm2]
    by_cases hz : r1.1 = 0
    · rw [if_neg (by simpa using hz)]
      exact ⟨_, _, _, rfl, by simp [vop_read_count, List.countP_append], fun _ => rfl⟩
    · rw [if_pos hz]
      exact ⟨_, _, _, rfl, by simp [vop_read_count, List.countP_append],
        fun h => absurd h hz⟩
  · rw [sys_write_live K fd r1 r2 s p file l h0 h1 hslot hheap hlock hm1]
    by_cases hz : r1.1 = 0
    · rw [if_neg (by simpa using hz)]
      exact ⟨_, _, _, rfl, by simp [vop_write_count, List.countP_append], fun _ => rfl⟩
    · rw [if_pos hz]
      exact ⟨_, _, _, rfl, by simp [vop_write_count, List.countP_append],
        fun h => absurd h hz⟩

/-- Witness for C12: descriptor 3 of a file opened read-only (flags 0). -/
theorem access_mode_check_witness :
    (0 : Int) ≤ 3 ∧ (3 : Int) < (Config.sample.MAX_PROCESS_OPEN_FILES : Int) ∧
    (State.one_file_flags 0).file_table (3 : Int).toNat = some 0 ∧
    (State.one_file_flags 0).heap 0 = some ⟨7, 0, 0, 1, some 0⟩ ∧
    Int.land (0 : Int) Config.sample.O_ACCMODE = Config.sample.O_RDONLY ∧
    ∃ s1, sys_write Config.sample 3 (0, 2) (0, 0) (State.one_file_flags 0) =
        .ret Config.sample.EBADF none s1 ∧
      s1.heap = (State.one_file_flags 0).heap ∧
      s1.file_table = (State.one_file_flags 0).file_table ∧
      vop_write_count s1.trace = vop_write_count (State.one_file_flags 0).trace :=
  ⟨by decide, by decide, rfl, rfl, by decide,
    (access_mode_check Config.sample 3 (0, 2) (0, 0) (State.one_file_flags 0) 0
      ⟨7, 0, 0, 1, some 0⟩ (by decide) (by decide) rfl rfl).1 (by decide)⟩

/-! ## Seeking -/

/-- The result of `sys_lseek` on a descriptor in range whose slot points to a
live object with a lock, when the vnode is seekable and both `VOP_STAT` and the
copy of the whence value succeed: the dispatch on whence of lines 232-264. -/
theorem sys_lseek_live (K : Config) (fd pos : Int) (e : LseekEnv) (s : State) (p : Nat)
    (file : File) (l : Nat) (h0 : 0 ≤ fd) (h1 : fd < (K.MAX_PROCESS_OPEN_FILES : Int))
    (hslot : s.file_table fd.toNat = some p) (hheap : s.heap p = some file)
    (hlock : file.flock = some l) (hseek : e.VOP_ISSEEKABLE = true)
    (hstat : e.VOP_STAT1.1 = 0) (hcopy : e.copyin.1 = 0) :
    sys_lseek K fd pos e s =
      if e.copyin.2 = K.SEEK_SET then
        if pos < 0 then
          .ret K.EINVAL none
            { s with trace := s.trace ++ [.table_read fd] ++ [.VOP_ISSEEKABLE file.v_ptr] ++
                [.VOP_STAT file.v_ptr] ++ [.copyin] }
        else
          .ret 0 (some pos)
            { s with
              heap := Function.update s.heap p (some { file with offset := pos }),
              trace := s.trace ++ [.table_read fd] ++ [.VOP_ISSEEKABLE file.v_ptr] ++
                [.VOP_STAT file.v_ptr] ++ [.copyin] }
      else if e.copyin.2 = K.SEEK_CUR then
        if wrap 64 (file.offset + pos) < 0 then
          .ret K.EINVAL none
            { s with trace := s.trace ++ [.table_read fd] ++ [.VOP_ISSEEKABLE file.v_ptr] ++
                [.VOP_STAT file.v_ptr] ++ [.copyin] }
        else
          .ret 0 (some (wrap 64 (file.offset + pos)))
            { s with
              heap := Function.update s.heap p
                (some { file with offset := wrap 64 (file.offset + pos) }),
              trace := s.trace ++ [.table_read fd] ++ [.VOP_ISSEEKABLE file.v_ptr] ++
                [.VOP_STAT file.v_ptr] ++ [.copyin] }
      else if e.copyin.2 = K.SEEK_END then
        if wrap 64 (e.VOP_STAT1.2 + pos) < 0 then
          .ret K.EINVAL none
            { s with trace := s.trace ++ [.table_read fd] ++ [.VOP_ISSEEKABLE file.v_ptr] ++
                [.VOP_STAT file.v_ptr] ++ [.copyin] }
        else
          .ret 0 (some (wrap 64 (e.VOP_STAT1.2 + pos)))
            { s with
              heap := Function.update s.heap p
                (some { file with offset := wrap 64 (e.VOP_STAT1.2 + pos) }),
              trace := s.trace ++ [.table_read fd] ++ [.VOP_ISSEEKABLE file.v_ptr] ++
                [.VOP_STAT file.v_ptr] ++ [.copyin] }
      else
        .ret K.EINVAL none
          { s with trace := s.trace ++ [.table_read fd] ++ [.VOP_ISSEEKABLE file.v_ptr] ++
              [.VOP_STAT file.v_ptr] ++ [.copyin] } := by
  have hr : ¬ (fd < 0 ∨ fd > (K.MAX_PROCESS_OPEN_FILES : Int)) := by omega
  simp only [sys_lseek, hr, State.slot_log, State.log_heap, State.slot_in_range K s fd h0 h1,
    hslot, hheap, hlock, hseek, hstat, hcopy, if_false, ne_eq, not_true_eq_false,
    Bool.true_eq_false]
  split
  · split <;> simp [State.setFile, State.log]
  · split
    · split <;> simp [State.setFile, State.log]
    · split
      · split <;> simp [State.setFile, State.log]
      · simp [State.log]

/-- With distinct whence constants and a target value `v` that is a value of
`off_t` (`pos` for SEEK_SET, `offset + pos` for SEEK_CUR, `st_size + pos` for
SEEK_END), `sys_lseek` returns EINVAL and changes nothing but the trace when
`v < 0`, and otherwise returns 0, stores `v` and sets the offset to `v`. -/
theorem sys_lseek_value (K : Config) (fd pos : Int) (e : LseekEnv) (s : State) (p : Nat)
    (file : File) (l : Nat) (h0 : 0 ≤ fd) (h1 : fd < (K.MAX_PROCESS_OPEN_FILES : Int))
    (hslot : s.file_table fd.toNat = some p) (hheap : s.heap p = some file)
    (hlock : file.flock = some l) (hseek : e.VOP_ISSEEKABLE = true)
    (hstat : e.VOP_STAT1.1 = 0) (hcopy : e.copyin.1 = 0)
    (hSC : K.SEEK_SET ≠ K.SEEK_CUR) (hSE : K.SEEK_SET ≠ K.SEEK_END)
    (hCE : K.SEEK_CUR ≠ K.SEEK_END) (v : Int) (hv : off_t_range v)
    (hwh : (e.copyin.2 = K.SEEK_SET ∧ v = pos) ∨
      (e.copyin.2 = K.SEEK_CUR ∧ v = file.offset + pos) ∨
      (e.copyin.2 = K.SEEK_END ∧ v = e.VOP_STAT1.2 + pos)) :
    ∃ t, sys_lseek K fd pos e s =
      if v < 0 then .ret K.EINVAL none { s with trace := t }
      else
        .ret 0 (some v)
          { s with heap := Function.update s.heap p (some { file with offset := v }),
                   trace := t } := by
  rw [sys_lseek_live K fd pos e s p file l h0 h1 hslot hheap hlock hseek hstat hcopy]
  rcases hwh with ⟨hw, rfl⟩ | ⟨hw, rfl⟩ | ⟨hw, rfl⟩
  · rw [if_pos hw]
    exact ⟨_, rfl⟩
  · rw [if_neg (by rw [hw]; exact fun h => hSC h.symm), if_pos hw,
      wrap_64_of_range _ hv.1 hv.2]
    exact ⟨_, rfl⟩
  · rw [if_neg (by rw [hw]; exact fun h => hSE h.symm),
      if_neg (by rw [hw]; exact fun h => hCE h.symm), if_pos hw,
      wrap_64_of_range _ hv.1 hv.2]
    exact ⟨_, rfl⟩

/-- C13, amended: for a descriptor in range whose slot points to a live object
with a non-NULL lock, on a seekable vnode with successful `VOP_STAT` and whence
copy, with distinct whence constants, EINVAL a non-zero code, and `v` the
target value (`pos` for SEEK_SET, `offset + pos` for SEEK_CUR, `st_size + pos`
for SEEK_END) a value of `off_t`: if `v` is non-negative `sys_lseek` returns 0,
stores `v` through `ret64` and sets the offset to `v`; and whenever `sys_lseek`
returns 0, the stored value and the new offset are `v`. -/
theorem sys_lseek_success (K : Config) (fd pos : Int) (e : LseekEnv) (s : State) (p : Nat)
    (file : File) (l : Nat) (h0 : 0 ≤ fd) (h1 : fd < (K.MAX_PROCESS_OPEN_FILES : Int))
    (hslot : s.file_table fd.toNat = some p) (hheap : s.heap p = some file)
    (hlock : file.flock = some l) (hseek : e.VOP_ISSEEKABLE = true)
    (hstat : e.VOP_STAT1.1 = 0) (hcopy : e.copyin.1 = 0)
    (hSC : K.SEEK_SET ≠ K.SEEK_CUR) (hSE : K.SEEK_SET ≠ K.SEEK_END)
    (hCE : K.SEEK_CUR ≠ K.SEEK_END) (hE : K.EINVAL ≠ 0) (v : Int) (hv : off_t_range v)
    (hwh : (e.copyin.2 = K.SEEK_SET ∧ v = pos) ∨
      (e.copyin.2 = K.SEEK_CUR ∧ v = file.offset + pos) ∨
      (e.copyin.2 = K.SEEK_END ∧ v = e.VOP_STAT1.2 + pos)) :
    (0 ≤ v → ∃ s1, sys_lseek K fd pos e s = .ret 0 (some v) s1 ∧
      s1.heap p = some { file with offset := v }) ∧
    (∀ c o s1, sys_lseek K fd pos e s = .ret c o s1 → c = 0 →
      o = some v ∧ s1.heap p = some { file with offset := v }) := by
  obtain ⟨t, ht⟩ := sys_lseek_value K fd pos e s p file l h0 h1 hslot hheap hlock hseek hstat
    hcopy hSC hSE hCE v hv hwh
  rw [ht]
  constructor
  · intro hv0
    rw [if_neg (by omega)]
    exact ⟨_, rfl, by simp⟩
  · intro c o s1 h hc
    by_cases hneg : v < 0
    · rw [if_pos hneg] at h
      simp only [Outcome.ret.injEq] at h
      exact absurd (h.1.trans hc) hE
    · rw [if_neg hneg] at h
      simp only [Outcome.ret.injEq] at h
      obtain ⟨-, ho, hs⟩ := h
      subst hs
      exact ⟨ho.symm, by simp⟩

/-- Witness for C13: SEEK_END with `pos` equal to minus the file size (10) on
descriptor 3 of `State.one_file` succeeds and yields offset 0. -/
theorem sys_lseek_success_witness :
    off_t_range 0 ∧
    Config.sample.EINVAL ≠ 0 ∧
    (∃ s1, sys_lseek Config.sample 3 (-10) ⟨true, (0, 10), 0, (0, 2)⟩ State.one_file =
        .ret 0 (some 0) s1 ∧
      s1.heap 0 = some { (⟨7, 2, 0, 1, some 0⟩ : File) with offset := 0 }) ∧
    (∀ c o s1, sys_lseek Config.sample 3 (-10) ⟨true, (0, 10), 0, (0, 2)⟩ State.one_file =
        .ret c o s1 → c = 0 →
      o = some 0 ∧ s1.heap 0 = some { (⟨7, 2, 0, 1, some 0⟩ : File) with offset := 0 }) :=
  ⟨by unfold off_t_range; norm_num, by decide,
    (sys_lseek_success Config.sample 3 (-10) ⟨true, (0, 10), 0, (0, 2)⟩ State.one_file 0
      ⟨7, 2, 0, 1, some 0⟩ 0 (by decide) (by decide) rfl rfl rfl rfl rfl rfl
      (by decide) (by decide) (by decide) (by decide) 0 (by unfold off_t_range; norm_num)
      (Or.inr (Or.inr ⟨rfl, by decide⟩))).1 (le_refl 0),
    (sys_lseek_success Config.sample 3 (-10) ⟨true, (0, 10), 0, (0, 2)⟩ State.one_file 0
      ⟨7, 2, 0, 1, some 0⟩ 0 (by decide) (by decide) rfl rfl rfl rfl rfl rfl
      (by decide) (by decide) (by decide) (by decide) 0 (by unfold off_t_range; norm_num)
      (Or.inr (Or.inr ⟨rfl, by decide⟩))).2⟩

/-- Failing paths of `sys_lseek` for a descriptor in range whose slot points to
a live object; each leaves table and objects (hence the offset) unchanged. A
non-seekable vnode gives ESPIPE, a failing `VOP_STAT` gives the result of its
re-invocation, a failing whence copy gives its result. With seekable vnode,
successful `VOP_STAT` and copy and distinct whence constants: SEEK_SET with
`pos < 0`, SEEK_END with `st_size + pos < 0` and any other whence value give
EINVAL whatever the lock is, because the tests of lines 234 and 256 come before
the lock is taken; SEEK_CUR with `offset + pos < 0` gives EINVAL when the object
has a lock (sums are values of `off_t`). -/
theorem sys_lseek_failure (K : Config) (fd pos : Int) (e : LseekEnv) (s : State) (p : Nat)
    (file : File) (h0 : 0 ≤ fd) (h1 : fd < (K.MAX_PROCESS_OPEN_FILES : Int))
    (hslot : s.file_table fd.toNat = some p) (hheap : s.heap p = some file) :
    (e.VOP_ISSEEKABLE = false →
      ∃ s1, sys_lseek K fd pos e s = .ret K.ESPIPE none s1 ∧
        s1.heap = s.heap ∧ s1.file_table = s.file_table) ∧
    (e.VOP_ISSEEKABLE = true → e.VOP_STAT1.1 ≠ 0 →
      ∃ s1, sys_lseek K fd pos e s = .ret e.VOP_STAT2 none s1 ∧
        s1.heap = s.heap ∧ s1.file_table = s.file_table) ∧
    (e.VOP_ISSEEKABLE = true → e.VOP_STAT1.1 = 0 → e.copyin.1 ≠ 0 →
      ∃ s1, sys_lseek K fd pos e s = .ret e.copyin.1 none s1 ∧
        s1.heap = s.heap ∧ s1.file_table = s.file_table) ∧
    (e.VOP_ISSEEKABLE = true → e.VOP_STAT1.1 = 0 → e.copyin.1 = 0 →
      K.SEEK_SET ≠ K.SEEK_CUR → K.SEEK_SET ≠ K.SEEK_END → K.SEEK_CUR ≠ K.SEEK_END →
      ((e.copyin.2 = K.SEEK_SET ∧ pos < 0) ∨
        (e.copyin.2 = K.SEEK_END ∧ e.VOP_STAT1.2 + pos < 0 ∧
          off_t_range (e.VOP_STAT1.2 + pos)) ∨
        (e.copyin.2 ≠ K.SEEK_SET ∧ e.copyin.2 ≠ K.SEEK_CUR ∧ e.copyin.2 ≠ K.SEEK_END)) →
      ∃ s1, sys_lseek K fd pos e s = .ret K.EINVAL none s1 ∧
        s1.heap = s.heap ∧ s1.file_table = s.file_table) ∧
    (e.VOP_ISSEEKABLE = true → e.VOP_STAT1.1 = 0 → e.copyin.1 = 0 →
      K.SEEK_SET ≠ K.SEEK_CUR →
      e.copyin.2 = K.SEEK_CUR → file.offset + pos < 0 → off_t_range (file.offset + pos) →
      ∀ l, file.flock = some l →
      ∃ s1, sys_lseek K fd pos e s = .ret K.EINVAL none s1 ∧
        s1.heap = s.heap ∧ s1.file_table = s.file_table) := by
  have hr : ¬ (fd < 0 ∨ fd > (K.MAX_PROCESS_OPEN_FILES : Int)) := by omega
  refine ⟨fun hs => ?_, fun hs hst => ?_, fun hs hst hc => ?_,
    fun hs hst hc hSC hSE hCE hcase => ?_,
    fun hs hst hc hSC hw hneg hrange l hlock => ?_⟩
  · refine ⟨(s.log (.table_read fd)).log (.VOP_ISSEEKABLE file.v_ptr), ?_, rfl, rfl⟩
    simp [sys_lseek, hr, State.slot_in_range K s fd h0 h1, hslot, hheap, hs]
  · refine ⟨(((s.log (.table_read fd)).log (.VOP_ISSEEKABLE file.v_ptr)).log
      (.VOP_STAT file.v_ptr)).log (.VOP_STAT file.v_ptr), ?_, rfl, rfl⟩
    simp [sys_lseek, hr, State.slot_in_range K s fd h0 h1, hslot, hheap, hs, hst]
  · refine ⟨(((s.log (.table_read fd)).log (.VOP_ISSEEKABLE file.v_ptr)).log
      (.VOP_STAT file.v_ptr)).log .copyin, ?_, rfl, rfl⟩
    simp [sys_lseek, hr, State.slot_in_range K s fd h0 h1, hslot, hheap, hs, hst, hc]
  · refine ⟨(((s.log (.table_read fd)).log (.VOP_ISSEEKABLE file.v_ptr)).log
      (.VOP_STAT file.v_ptr)).log .copyin, ?_, rfl, rfl⟩
    rcases hcase with ⟨hw, hneg⟩ | ⟨hw, hneg, hrange⟩ | ⟨n1, n2, n3⟩
    · simp [sys_lseek, hr, State.slot_in_range K s fd h0 h1, hslot, hheap, hs, hst, hc, hw,
        hneg]
    · have n1 : ¬ K.SEEK_END = K.SEEK_SET := fun h => hSE h.symm
      have n2 : ¬ K.SEEK_END = K.SEEK_CUR := fun h => hCE h.symm
      have hwr := wrap_64_of_range _ hrange.1 hrange.2
      simp [sys_lseek, hr, State.slot_in_range K s fd h0 h1, hslot, hheap, hs, hst, hc, hw,
        n1, n2, hwr, hneg]
    · simp [sys_lseek, hr, State.slot_in_range K s fd h0 h1, hslot, hheap, hs, hst, hc, n1,
        n2, n3]
  · rw [sys_lseek_live K fd pos e s p file l h0 h1 hslot hheap hlock hs hst hc,
      if_neg (by rw [hw]; exact fun h => hSC h.symm), if_pos hw,
      wrap_64_of_range _ hrange.1 hrange.2, if_pos hneg]
    exact ⟨_, rfl, rfl, rfl⟩

/-- C20: with 64-bit wrapping `off_t` addition, for a descriptor in range whose
slot points to a live object with a lock and an offset `>= 0`, a reported file
size `>= 0`, `pos` any value of `off_t`, on the SEEK_CUR and SEEK_END paths
(seekable vnode, successful `VOP_STAT` and whence copy, distinct whence
constants), with `exact` the integer sum `offset + pos`, respectively
`st_size + pos`: whatever `sys_lseek` returns, the value it stores through
`ret64` is `exact` if it stores one, and the offset of the object afterwards is
the old one or `exact`; and when `exact` exceeds `2^63 - 1` the call returns
EINVAL and leaves the object unchanged. -/
theorem sys_lseek_no_wrapped_offset (K : Config) (fd pos : Int) (e : LseekEnv) (s : State)
    (p : Nat) (file : File) (l : Nat)
    (h0 : 0 ≤ fd) (h1 : fd < (K.MAX_PROCESS_OPEN_FILES : Int))
    (hslot : s.file_table fd.toNat = some p) (hheap : s.heap p = some file)
    (hlock : file.flock = some l) (hseek : e.VOP_ISSEEKABLE = true)
    (hstat : e.VOP_STAT1.1 = 0) (hcopy : e.copyin.1 = 0)
    (hSC : K.SEEK_SET ≠ K.SEEK_CUR) (hSE : K.SEEK_SET ≠ K.SEEK_END)
    (hCE : K.SEEK_CUR ≠ K.SEEK_END)
    (hoff0 : 0 ≤ file.offset) (hoff : off_t_range file.offset)
    (hsz0 : 0 ≤ e.VOP_STAT1.2) (hsz : off_t_range e.VOP_STAT1.2) (hpos : off_t_range pos)
    (exact : Int)
    (hwh : (e.copyin.2 = K.SEEK_CUR ∧ exact = file.offset + pos) ∨
      (e.copyin.2 = K.SEEK_END ∧ exact = e.VOP_STAT1.2 + pos)) :
    (∀ c o s1, sys_lseek K fd pos e s = .ret c o s1 →
      (o = none ∨ o = some exact) ∧
      (s1.heap p = some file ∨ s1.heap p = some { file with offset := exact })) ∧
    ((2 : Int) ^ 63 ≤ exact →
      ∃ s1, sys_lseek K fd pos e s = .ret K.EINVAL none s1 ∧ s1.heap p = some file) := by
  have hlo : -(2 : Int) ^ 63 ≤ exact := by
    unfold off_t_range at hoff hsz hpos
    rcases hwh with ⟨-, rfl⟩ | ⟨-, rfl⟩ <;> omega
  have hhi : exact < (2 : Int) ^ 64 := by
    unfold off_t_range at hoff hsz hpos
    norm_num at hoff hsz hpos ⊢
    rcases hwh with ⟨-, rfl⟩ | ⟨-, rfl⟩ <;> omega
  have hform : ∃ t, sys_lseek K fd pos e s =
      if wrap 64 exact < 0 then .ret K.EINVAL none { s with trace := t }
      else
        .ret 0 (some (wrap 64 exact))
          { s with
            heap := Function.update s.heap p (some { file with offset := wrap 64 exact }),
            trace := t } := by
    rw [sys_lseek_live K fd pos e s p file l h0 h1 hslot hheap hlock hseek hstat hcopy]
    rcases hwh with ⟨hw, rfl⟩ | ⟨hw, rfl⟩
    · rw [if_neg (by rw [hw]; exact fun h => hSC h.symm), if_pos hw]
      exact ⟨_, rfl⟩
    · rw [if_neg (by rw [hw]; exact fun h => hSE h.symm),
        if_neg (by rw [hw]; exact fun h => hCE h.symm), if_pos hw]
      exact ⟨_, rfl⟩
  obtain ⟨t, ht⟩ := hform
  rw [ht]
  by_cases hbig : (2 : Int) ^ 63 ≤ exact
  · have hw : wrap 64 exact < 0 := by
      rw [wrap_64_overflow exact hbig hhi]
      omega
    rw [if_pos hw]
    constructor
    · intro c o s1 h
      simp only [Outcome.ret.injEq] at h
      obtain ⟨-, ho, hs⟩ := h
      subst hs
      exact ⟨Or.inl ho.symm, Or.inl hheap⟩
    · intro _
      exact ⟨_, rfl, hheap⟩
  · have hw : wrap 64 exact = exact := wrap_64_of_range exact hlo (by omega)
    rw [hw]
    constructor
    · intro c o s1 h
      split at h
      · simp only [Outcome.ret.injEq] at h
        obtain ⟨-, ho, hs⟩ := h
        subst hs
        exact ⟨Or.inl ho.symm, Or.inl hheap⟩
      · simp only [Outcome.ret.injEq] at h
        obtain ⟨-, ho, hs⟩ := h
        subst hs
        exact ⟨Or.inr ho.symm, Or.inr (by simp)⟩
    · intro h
      exact absurd h hbig

/-- Witness for C20: SEEK_END with file size `2^63 - 1` and `pos = 1` on
descriptor 3 of `State.one_file`: the exact sum is `2^63`, the call returns
EINVAL and the object is unchanged. -/
theorem sys_lseek_no_wrapped_offset_witness :
    off_t_range 9223372036854775807 ∧ off_t_range 1 ∧
    (2 : Int) ^ 63 ≤ 9223372036854775807 + 1 ∧
    ∃ s1, sys_lseek Config.sample 3 1 ⟨true, (0, 9223372036854775807), 0, (0, 2)⟩
        State.one_file = .ret Config.sample.EINVAL none s1 ∧
      s1.heap 0 = some ⟨7, 2, 0, 1, some 0⟩ :=
  ⟨by unfold off_t_range; norm_num, by unfold off_t_range; norm_num, by norm_num,
    (sys_lseek_no_wrapped_offset Config.sample 3 1
      ⟨true, (0, 9223372036854775807), 0, (0, 2)⟩ State.one_file 0 ⟨7, 2, 0, 1, some 0⟩ 0
      (by decide) (by decide) rfl rfl rfl rfl rfl rfl (by decide) (by decide) (by decide)
      (by decide) (by unfold off_t_range; norm_num) (by decide)
      (by unfold off_t_range; norm_num) (by unfold off_t_range; norm_num)
      (9223372036854775807 + 1) (Or.inr ⟨rfl, rfl⟩)).2 (by norm_num)⟩

/-! ## Offsets stay non-negative -/

theorem State.offsets_nonneg_of_eq (s s1 : State) (hh : s1.heap = s.heap)
    (h : s.offsets_nonneg) : s1.offsets_nonneg := by
  intro p f hp
  rw [hh] at hp
  exact h p f hp

theorem State.offsets_nonneg_update (s s1 : State) (p : Nat) (f1 : Option File)
    (hh : s1.heap = Function.update s.heap p f1) (hf : ∀ f, f1 = some f → 0 ≤ f.offset)
    (h : s.offsets_nonneg) : s1.offsets_nonneg := by
  intro q f hq
  rw [hh] at hq
  by_cases hqp : q = p
  · subst hqp
    simp only [Function.update_same] at hq
    exact hf f hq
  · rw [Function.update_noteq hqp] at hq
    exact h q f hq

theorem sys_read_offsets (K : Config) (fd : Int) (r1 r2 : Int × Int) (s s1 : State) (c : Int)
    (o : Option Int) (hinv : s.offsets_nonneg) (hm : (Call.sys_read fd r1 r2).monotone s)
    (h : sys_read K fd r1 r2 s = .ret c o s1) : s1.offsets_nonneg := by
  unfold sys_read at h
  simp only [State.slot_log, State.log_heap] at h
  split at h
  · simp only [Outcome.ret.injEq] at h
    obtain ⟨-, -, rfl⟩ := h
    exact State.offsets_nonneg_of_eq _ _ rfl hinv
  · split at h
    · simp at h
    · simp only [Outcome.ret.injEq] at h
      obtain ⟨-, -, rfl⟩ := h
      exact State.offsets_nonneg_of_eq _ _ rfl hinv
    · rename_i p hp
      split at h
      · simp at h
      · rename_i file hfile
        split at h
        · simp only [Outcome.ret.injEq] at h
          obtain ⟨-, -, rfl⟩ := h
          exact State.offsets_nonneg_of_eq _ _ rfl hinv
        · split at h
          · simp at h
          · split at h
            · simp only [Outcome.ret.injEq] at h
              obtain ⟨-, -, rfl⟩ := h
              exact State.offsets_nonneg_of_eq _ _ rfl hinv
            · simp only [Outcome.ret.injEq] at h
              obtain ⟨-, -, rfl⟩ := h
              have hle : file.offset ≤ r1.2 :=
                hm p file (State.slot_eq_some K s fd _ hp).1 hfile
              have h0 : 0 ≤ file.offset := hinv p file hfile
              refine State.offsets_nonneg_update s _ p _ rfl ?_ hinv
              intro f hf
              simp only [Option.some.injEq] at hf
              subst hf
              exact le_trans h0 hle

theorem sys_write_offsets (K : Config) (fd : Int) (r1 r2 : Int × Int) (s s1 : State)
    (c : Int) (o : Option Int) (hinv : s.offsets_nonneg)
    (hm : (Call.sys_write fd r1 r2).monotone s)
    (h : sys_write K fd r1 r2 s = .ret c o s1) : s1.offsets_nonneg := by
  unfold sys_write at h
  simp only [State.slot_log, State.log_heap] at h
  split at h
  · simp only [Outcome.ret.injEq] at h
    obtain ⟨-, -, rfl⟩ := h
    exact State.offsets_nonneg_of_eq _ _ rfl hinv
  · split at h
    · simp at h
    · simp only [Outcome.ret.injEq] at h
      obtain ⟨-, -, rfl⟩ := h
      exact State.offsets_nonneg_of_eq _ _ rfl hinv
    · rename_i p hp
      split at h
      · simp at h
      · rename_i file hfile
        split at h
        · simp only [Outcome.ret.injEq] at h
          obtain ⟨-, -, rfl⟩ := h
          exact State.offsets_nonneg_of_eq _ _ rfl hinv
        · split at h
          · simp at h
          · split at h
            · simp only [Outcome.ret.injEq] at h
              obtain ⟨-, -, rfl⟩ := h
              exact State.offsets_nonneg_of_eq _ _ rfl hinv
            · simp only [Outcome.ret.injEq] at h
              obtain ⟨-, -, rfl⟩ := h
              have hle : file.offset ≤ r1.2 :=
                hm p file (State.slot_eq_some K s fd _ hp).1 hfile
              have h0 : 0 ≤ file.offset := hinv p file hfile
              refine State.offsets_nonneg_update s _ p _ rfl ?_ hinv
              intro f hf
              simp only [Option.some.injEq] at hf
              subst hf
              exact le_trans h0 hle

theorem sys_lseek_offsets (K : Config) (fd pos : Int) (e : LseekEnv) (s s1 : State) (c : Int)
    (o : Option Int) (hinv : s.offsets_nonneg)
    (h : sys_lseek K fd pos e s = .ret c o s1) : s1.offsets_nonneg := by
  unfold sys_lseek at h
  simp only [State.slot_log, State.log_heap] at h
  split at h
  · simp only [Outcome.ret.injEq] at h
    obtain ⟨-, -, rfl⟩ := h
    exact hinv
  · split at h
    · simp at h
    · simp only [Outcome.ret.injEq] at h
      obtain ⟨-, -, rfl⟩ := h
      exact State.offsets_nonneg_of_eq _ _ rfl hinv
    · rename_i p hp
      split at h
      · simp at h
      · rename_i file hfile
        split at h
        · simp only [Outcome.ret.injEq] at h
          obtain ⟨-, -, rfl⟩ := h
          exact State.offsets_nonneg_of_eq _ _ rfl hinv
        · split at h
          · simp only [Outcome.ret.injEq] at h
            obtain ⟨-, -, rfl⟩ := h
            exact State.offsets_nonneg_of_eq _ _ rfl hinv
          · split at h
            · simp only [Outcome.ret.injEq] at h
              obtain ⟨-, -, rfl⟩ := h
              exact State.offsets_nonneg_of_eq _ _ rfl hinv
            · split at h
              · split at h
                · simp only [Outcome.ret.injEq] at h
                  obtain ⟨-, -, rfl⟩ := h
                  exact State.offsets_nonneg_of_eq _ _ rfl hinv
                · rename_i hpos
                  split at h
                  · simp at h
                  · simp only [Outcome.ret.injEq] at h
                    obtain ⟨-, -, rfl⟩ := h
                    refine State.offsets_nonneg_update s _ p _ rfl ?_ hinv
                    intro f hf
                    simp only [Option.some.injEq] at hf
                    subst hf
                    exact not_lt.mp hpos
              · split at h
                · split at h
                  · simp at h
                  · split at h
                    · simp only [Outcome.ret.injEq] at h
                      obtain ⟨-, -, rfl⟩ := h
                      exact State.offsets_nonneg_of_eq _ _ rfl hinv
                    · rename_i hpos
                      simp only [Outcome.ret.injEq] at h
                      obtain ⟨-, -, rfl⟩ := h
                      refine State.offsets_nonneg_update s _ p _ rfl ?_ hinv
                      intro f hf
                      simp only [Option.some.injEq] at hf
                      subst hf
                      exact not_lt.mp hpos
                · split at h
                  · split at h
                    · simp only [Outcome.ret.injEq] at h
                      obtain ⟨-, -, rfl⟩ := h
                      exact State.offsets_nonneg_of_eq _ _ rfl hinv
                    · rename_i hpos
                      split at h
                      · simp at h
                      · simp only [Outcome.ret.injEq] at h
                        obtain ⟨-, -, rfl⟩ := h
                        refine State.offsets_nonneg_update s _ p _ rfl ?_ hinv
                        intro f hf
                        simp only [Option.some.injEq] at hf
                        subst hf
                        exact not_lt.mp hpos
                  · simp only [Outcome.ret.injEq] at h
                    obtain ⟨-, -, rfl⟩ := h
                    exact State.offsets_nonneg_of_eq _ _ rfl hinv

theorem sys_close_offsets (K : Config) (fd : Int) (s s1 : State) (c : Int)
    (o : Option Int) (hinv : s.offsets_nonneg) (h : sys_close K fd s = .ret c o s1) :
    s1.offsets_nonneg := by
  unfold sys_close at h
  simp only [State.slot_log, State.log_heap] at h
  split at h
  · simp only [Outcome.ret.injEq] at h
    obtain ⟨-, -, rfl⟩ := h
    exact hinv
  · split at h
    · simp at h
    · simp only [Outcome.ret.injEq] at h
      obtain ⟨-, -, rfl⟩ := h
      exact State.offsets_nonneg_of_eq _ _ rfl hinv
    · split at h
      · simp at h
      · simp at h
      · rename_i p hp
        split at h
        · simp at h
        · rename_i file hfile
          split at h
          · simp at h
          · split at h
            · simp only [Outcome.ret.injEq] at h
              obtain ⟨-, -, rfl⟩ := h
              refine State.offsets_nonneg_update s _ p none rfl ?_ hinv
              intro f hf
              simp at hf
            · simp only [Outcome.ret.injEq] at h
              obtain ⟨-, -, rfl⟩ := h
              refine State.offsets_nonneg_update s _ p _ rfl ?_ hinv
              intro f hf
              simp only [Option.some.injEq] at hf
              subst hf
              exact hinv p file hfile

theorem sys_dup2_tail_offsets (K : Config) (fd : Int) (s s1 : State) (c : Int)
    (o : Option Int) (hinv : s.offsets_nonneg) (h : sys_dup2_tail K fd s = .ret c o s1) :
    s1.offsets_nonneg := by
  unfold sys_dup2_tail at h
  simp only [State.slot_log, State.log_heap] at h
  split at h
  · simp at h
  · simp at h
  · rename_i p hp
    split at h
    · simp at h
    · rename_i file hfile
      split at h
      · simp at h
      · simp only [Outcome.ret.injEq] at h
        obtain ⟨-, -, rfl⟩ := h
        refine State.offsets_nonneg_update s _ p _ rfl ?_ hinv
        intro f hf
        simp only [Option.some.injEq] at hf
        subst hf
        exact hinv p file hfile

theorem sys_dup2_offsets (K : Config) (oldfd newfd : Int) (s s1 : State) (c : Int)
    (o : Option Int) (hinv : s.offsets_nonneg) (h : sys_dup2 K oldfd newfd s = .ret c o s1) :
    s1.offsets_nonneg := by
  unfold sys_dup2 at h
  simp only [State.slot_log] at h
  split at h
  · simp only [Outcome.ret.injEq] at h
    obtain ⟨-, -, rfl⟩ := h
    exact hinv
  · split at h
    · simp at h
    · simp only [Outcome.ret.injEq] at h
      obtain ⟨-, -, rfl⟩ := h
      exact State.offsets_nonneg_of_eq _ _ rfl hinv
    · split at h
      · simp at h
      · exact sys_dup2_tail_offsets K oldfd
          ((s.log (.table_read oldfd)).log (.table_read newfd)) s1 c o
          (State.offsets_nonneg_of_eq s _ rfl hinv) h
      · split at h
        · simp at h
        · rename_i c1 o1 s2 hcl
          have h2 : s2.offsets_nonneg :=
            sys_close_offsets K newfd ((s.log (.table_read oldfd)).log (.table_read newfd))
              s2 c1 o1 (State.offsets_nonneg_of_eq s _ rfl hinv) hcl
          split at h
          · exact sys_close_offsets K newfd s2 s1 c o h2 h
          · exact sys_dup2_tail_offsets K oldfd s2 s1 c o h2 h

theorem static_open_offsets (K : Config) (flags fd : Int) (e : OpenEnv) (s s1 : State)
    (c : Int) (o : Option Int) (hinv : s.offsets_nonneg)
    (h : static_open K flags fd e s = .ret c o s1) : s1.offsets_nonneg := by
  unfold static_open at h
  simp only [State.slot_log] at h
  split at h
  · simp only [Outcome.ret.injEq] at h
    obtain ⟨-, -, rfl⟩ := h
    exact State.offsets_nonneg_of_eq _ _ rfl hinv
  · split at h
    · simp only [Outcome.ret.injEq] at h
      obtain ⟨-, -, rfl⟩ := h
      exact State.offsets_nonneg_of_eq _ _ rfl hinv
    · split at h
      · simp at h
      · split at h
        · simp at h
        · simp only [Outcome.ret.injEq] at h
          obtain ⟨-, -, rfl⟩ := h
          refine State.offsets_nonneg_update s _ s.brk _ rfl ?_ hinv
          intro f hf
          simp only [Option.some.injEq] at hf
          subst hf
          exact le_refl 0

theorem sys_open_offsets (K : Config) (filename : Nat) (flags : Int) (e : SysOpenEnv)
    (s s1 : State) (c : Int) (o : Option Int) (hinv : s.offsets_nonneg)
    (h : sys_open K filename flags e s = .ret c o s1) : s1.offsets_nonneg := by
  obtain ⟨-, fb, -, -, -⟩ := sys_open_loop_frame (K.MAX_PROCESS_OPEN_FILES - 3) 3
    ((s.log .kmalloc).log .copyinstr)
  have hl : (sys_open_loop (K.MAX_PROCESS_OPEN_FILES - 3) 3
      ((s.log .kmalloc).log .copyinstr)).2.offsets_nonneg :=
    State.offsets_nonneg_of_eq s _ fb hinv
  unfold sys_open at h
  split at h
  · simp only [Outcome.ret.injEq] at h
    obtain ⟨-, -, rfl⟩ := h
    exact hinv
  · split at h
    · simp only [Outcome.ret.injEq] at h
      obtain ⟨-, -, rfl⟩ := h
      exact State.offsets_nonneg_of_eq _ _ rfl hinv
    · split at h
      · simp only [Outcome.ret.injEq] at h
        obtain ⟨-, -, rfl⟩ := h
        exact State.offsets_nonneg_of_eq _ _ rfl hinv
      · simp only at h
        split at h
        · simp only [Outcome.ret.injEq] at h
          obtain ⟨-, -, rfl⟩ := h
          exact State.offsets_nonneg_of_eq _ _ rfl hl
        · split at h
          · simp only [Outcome.ret.injEq] at h
            obtain ⟨-, -, rfl⟩ := h
            exact State.offsets_nonneg_of_eq _ _ rfl hl
          · split at h
            · simp at h
            · rename_i c1 o1 s2 hso
              have h2 : s2.offsets_nonneg :=
                static_open_offsets K flags _ e.open1 _ s2 c1 o1 hl hso
              split at h
              · exact static_open_offsets K flags _ e.open2 (s2.log .kfree) s1 c o
                  (State.offsets_nonneg_of_eq s2 _ rfl h2) h
              · simp only [Outcome.ret.injEq] at h
                obtain ⟨-, -, rfl⟩ := h
                exact State.offsets_nonneg_of_eq s2 _ rfl h2

/-- For the records in which the embedding keeps the fields of the file objects
(see `static_open`): in every state reachable from the initial state by system
calls whose storage collaborator never leaves a transfer below the position it
started at and never reports a negative file size, the offset held in the
record of every live object is non-negative. The stores that reach beyond the
allocated blocks are not part of this statement. -/
theorem reachable_offsets_nonneg (K : Config) (s : State) (h : ReachableMonotone K s) :
    ∀ p f, s.heap p = some f → 0 ≤ f.offset := by
  induction h with
  | init =>
    intro p f hp
    simp [State.init] at hp
  | @step s0 s2 call code out _ hm hex ih =>
    cases call with
    | sys_open filename flags e => exact sys_open_offsets K filename flags e s0 s2 code out ih hex
    | sys_read fd r1 r2 => exact sys_read_offsets K fd r1 r2 s0 s2 code out ih hm hex
    | sys_write fd r1 r2 => exact sys_write_offsets K fd r1 r2 s0 s2 code out ih hm hex
    | sys_lseek fd pos e => exact sys_lseek_offsets K fd pos e s0 s2 code out ih hex
    | sys_dup2 oldfd newfd => exact sys_dup2_offsets K oldfd newfd s0 s2 code out ih hex
    | sys_close fd => exact sys_close_offsets K fd s0 s2 code out ih hex

/-- The previous statement at the state after a successful `sys_open` and a
`sys_write` of 2 bytes, which is reachable with a collaborator that satisfies
the assumption. -/
theorem reachable_offsets_nonneg_witness :
    ReachableMonotone Config.sample State.written ∧
    (State.written.heap 0).map (fun f => f.offset) = some 2 ∧
    ∀ p f, State.written.heap p = some f → 0 ≤ f.offset := by
  have hr : ReachableMonotone Config.sample State.written := by
    refine @ReachableMonotone.step Config.sample State.opened State.written
      (Call.sys_write 3 (0, 2) (0, 0)) 0 (some 2)
      (@ReachableMonotone.step Config.sample State.init State.opened
        (Call.sys_open 1 2 (SysOpenEnv.ok 7 0)) 0 (some 3)
        ReachableMonotone.init trivial rfl) ?_ rfl
    intro p f hp hf
    have h3 : State.opened.file_table (3 : Int).toNat = some 0 := rfl
    rw [h3] at hp
    simp only [Option.some.injEq] at hp
    subst hp
    have h0 : State.opened.heap 0 = some ⟨7, 2, 0, 1, some 0⟩ := rfl
    rw [h0] at hf
    simp only [Option.some.injEq] at hf
    subst hf
    decide
  exact ⟨hr, rfl, reachable_offsets_nonneg Config.sample State.written hr⟩

/-! ## The system-wide counter and repeated collaborator calls -/

/-- C16: from the initial state, a `sys_open` whose first call of `open` fails
and whose second call of `open` succeeds returns 0 and binds slot 3 but leaves
`total_file_opened` at 0 (one successful open, no close); the following
`sys_close(3)` returns 0 and leaves `total_file_opened` at -1. -/
theorem counter_misses_retried_open :
    ∃ s1 s2,
      sys_open Config.sample 1 2 SysOpenEnv.open_retry State.init = .ret 0 none s1 ∧
      s1.total_file_opened = 0 ∧
      sys_close Config.sample 3 s1 = .ret 0 none s2 ∧
      s2.total_file_opened = -1 :=
  ⟨_, _, rfl, rfl, rfl, rfl⟩

/-- C17: a failing collaborator call is invoked a second time and the result of
the second invocation is what the system call returns: `VOP_READ` in
`sys_read`, `VOP_WRITE` in `sys_write`, `VOP_STAT` in `sys_lseek`, `copyinstr`
in `sys_open` and `vfs_open` in `open`; each first answer is error 33, each
second answer is 5. -/
theorem failing_call_is_repeated :
    (∃ s1, sys_read Config.sample 3 (33, 0) (5, 0) State.one_file = .ret 5 none s1 ∧
      vop_read_count s1.trace = 2) ∧
    (∃ s1, sys_write Config.sample 3 (33, 0) (5, 0) State.one_file = .ret 5 none s1 ∧
      vop_write_count s1.trace = 2) ∧
    (∃ s1, sys_lseek Config.sample 3 0 ⟨true, (33, 0), 5, (0, 0)⟩ State.one_file =
        .ret 5 none s1 ∧
      vop_stat_count s1.trace = 2) ∧
    (∃ s1, sys_open Config.sample 1 2 ⟨true, 33, 5, OpenEnv.ok 7 0, OpenEnv.ok 7 0⟩
        State.init = .ret 5 none s1 ∧
      copyinstr_count s1.trace = 2) ∧
    (∃ s1, static_open Config.sample 2 3 ⟨true, (33, 0), 5, some 0, some 1⟩ State.init =
        .ret 5 none s1 ∧
      vfs_open_count s1.trace = 2) :=
  ⟨⟨_, rfl, by decide⟩, ⟨_, rfl, by decide⟩, ⟨_, rfl, by decide⟩, ⟨_, rfl, by decide⟩,
    ⟨_, rfl, by decide⟩⟩

/-! ## Accesses to the descriptor table -/

/-- C19: called with descriptor -1, `sys_read` and `sys_write` evaluate
`curproc->file_table[-1]` (lines 95 and 136) before the range check sends them
to EBADF; called with descriptor 16 on a table of 16 slots they evaluate
`curproc->file_table[16]`. -/
theorem table_read_before_range_check :
    (∃ s1, sys_read Config.sample (-1) (0, 0) (0, 0) State.one_file =
        .ret Config.sample.EBADF none s1 ∧
      table_accesses s1.trace = [-1]) ∧
    (∃ s1, sys_write Config.sample (-1) (0, 0) (0, 0) State.one_file =
        .ret Config.sample.EBADF none s1 ∧
      table_accesses s1.trace = [-1]) ∧
    (∃ s1, sys_read Config.sample 16 (0, 0) (0, 0) State.one_file =
        .ret Config.sample.EBADF none s1 ∧
      table_accesses s1.trace = [16]) ∧
    (∃ s1, sys_write Config.sample 16 (0, 0) (0, 0) State.one_file =
        .ret Config.sample.EBADF none s1 ∧
      table_accesses s1.trace = [16]) :=
  ⟨⟨_, rfl, rfl⟩, ⟨_, rfl, rfl⟩, ⟨_, rfl, rfl⟩, ⟨_, rfl, rfl⟩⟩

/-! ## A file object whose lock is NULL -/

/-- C7: a `sys_open` whose `lock_create` of line 287 returns NULL while the
`lock_create` of line 289 succeeds returns 0 with descriptor 3; in the state it
leaves, which is reachable, slot 3 points to a live object with reference
count 1 whose `flock` is NULL, and `sys_close(3)` stops at
`lock_acquire(file->flock)` of line 321 instead of returning 0. -/
theorem sys_close_null_lock :
    sys_open Config.sample 1 2 SysOpenEnv.null_lock State.init =
      .ret 0 (some 3) State.null_lock ∧
    Reachable Config.sample State.null_lock ∧
    State.null_lock.file_table 3 = some 0 ∧
    State.null_lock.heap 0 = some ⟨7, 2, 0, 1, none⟩ ∧
    sys_close Config.sample 3 State.null_lock = .undefined .null_deref :=
  ⟨rfl,
    @Reachable.step Config.sample State.init State.null_lock
      (Call.sys_open 1 2 SysOpenEnv.null_lock) 0 (some 3) Reachable.init rfl,
    rfl, rfl, rfl⟩

/-- C14: in the reachable state `State.null_lock` (slot 3 bound to a live object
at offset 0 whose `flock` is NULL), `sys_lseek(3, -1, SEEK_CUR)` reaches
`lock_acquire(file->flock)` of line 245 before the test of line 246 and does not
return EINVAL, although `offset + pos = -1 < 0`. -/
theorem sys_lseek_cur_null_lock :
    Reachable Config.sample State.null_lock ∧
    State.null_lock.file_table 3 = some 0 ∧
    (State.null_lock.heap 0).map (fun f => f.offset) = some 0 ∧
    sys_lseek Config.sample 3 (-1) ⟨true, (0, 10), 0, (0, Config.sample.SEEK_CUR)⟩
      State.null_lock = .undefined .null_deref :=
  ⟨@Reachable.step Config.sample State.init State.null_lock
      (Call.sys_open 1 2 SysOpenEnv.null_lock) 0 (some 3) Reachable.init rfl,
    rfl, rfl, rfl⟩

/-- C13, as stated, fails at two inputs. With file size `2^63 - 1` and `pos = 1`
the value `size + pos` is non-negative, yet `sys_lseek` with SEEK_END on
descriptor 3 of `State.one_file` does not return 0 (it returns EINVAL). And in
the reachable state `State.null_lock`, SEEK_END with `pos` equal to minus the
file size (value 0) does not return 0 either: the call stops at
`lock_acquire(file->flock)` of line 259. -/
theorem sys_lseek_nonneg_not_success :
    ¬ ((0 : Int) ≤ 9223372036854775807 + 1 →
      (sys_lseek Config.sample 3 1
        ⟨true, (0, 9223372036854775807), 0, (0, Config.sample.SEEK_END)⟩
        State.one_file).code? = some 0) ∧
    ¬ ((0 : Int) ≤ 10 + -10 →
      (sys_lseek Config.sample 3 (-10) ⟨true, (0, 10), 0, (0, Config.sample.SEEK_END)⟩
        State.null_lock).code? = some 0) := by
  constructor
  · intro h
    have h2 : (sys_lseek Config.sample 3 1
        ⟨true, (0, 9223372036854775807), 0, (0, Config.sample.SEEK_END)⟩
        State.one_file).code? = some Config.sample.EINVAL := rfl
    rw [h2] at h
    exact absurd (h (by norm_num)) (by decide)
  · intro h
    have h2 : (sys_lseek Config.sample 3 (-10)
        ⟨true, (0, 10), 0, (0, Config.sample.SEEK_END)⟩ State.null_lock).code? = none := rfl
    rw [h2] at h
    exact absurd (h (by norm_num)) (by simp)

/-! ## The fields of every file object lie beyond its allocated block -/

theorem State.stored_past_block_of_eq (s s1 : State) (hh : s1.heap = s.heap)
    (ht : ∀ ev, ev ∈ s.trace → ev ∈ s1.trace) (h : s.stored_past_block) :
    s1.stored_past_block := by
  intro p f hp
  rw [hh] at hp
  exact ht _ (h p f hp)

theorem State.stored_past_block_update (s s1 : State) (p : Nat) (f1 : Option File)
    (hh : s1.heap = Function.update s.heap p f1)
    (ht : ∀ ev, ev ∈ s.trace → ev ∈ s1.trace)
    (hp : (∃ f, s.heap p = some f) ∨ Event.store_past_block p ∈ s1.trace)
    (h : s.stored_past_block) : s1.stored_past_block := by
  intro q f hq
  rw [hh] at hq
  by_cases hqp : q = p
  · subst hqp
    rcases hp with ⟨g, hg⟩ | hp
    · exact ht _ (h q g hg)
    · exact hp
  · rw [Function.update_noteq hqp] at hq
    exact ht _ (h q f hq)

theorem sys_open_loop_trace (n i : Nat) (s : State) :
    ∀ ev, ev ∈ s.trace → ev ∈ (sys_open_loop n i s).2.trace := by
  induction n generalizing i s with
  | zero => exact fun ev h => h
  | succ n ih =>
    intro ev h
    unfold sys_open_loop
    by_cases he : s.file_table i = none
    · simp [he, h]
    · simp only [he, if_false]
      exact ih (i + 1) (s.log (.table_read i)) ev (by simp [h])

theorem sys_read_stored_past_block (K : Config) (fd : Int) (r1 r2 : Int × Int)
    (s s1 : State) (c : Int) (o : Option Int) (hinv : s.stored_past_block)
    (h : sys_read K fd r1 r2 s = .ret c o s1) : s1.stored_past_block := by
  unfold sys_read at h
  simp only [State.slot_log, State.log_heap] at h
  split at h
  · simp only [Outcome.ret.injEq] at h
    obtain ⟨-, -, rfl⟩ := h
    exact State.stored_past_block_of_eq s _ rfl (fun ev hev => by simp [hev]) hinv
  · split at h
    · simp at h
    · simp only [Outcome.ret.injEq] at h
      obtain ⟨-, -, rfl⟩ := h
      exact State.stored_past_block_of_eq s _ rfl (fun ev hev => by simp [hev]) hinv
    · rename_i p hp
      split at h
      · simp at h
      · rename_i file hfile
        split at h
        · simp only [Outcome.ret.injEq] at h
          obtain ⟨-, -, rfl⟩ := h
          exact State.stored_past_block_of_eq s _ rfl (fun ev hev => by simp [hev]) hinv
        · split at h
          · simp at h
          · split at h
            · simp only [Outcome.ret.injEq] at h
              obtain ⟨-, -, rfl⟩ := h
              exact State.stored_past_block_of_eq s _ rfl (fun ev hev => by simp [hev]) hinv
            · simp only [Outcome.ret.injEq] at h
              obtain ⟨-, -, rfl⟩ := h
              exact State.stored_past_block_update s _ p _ rfl
                (fun ev hev => by simp [State.setFile, hev]) (Or.inl ⟨file, hfile⟩) hinv

theorem sys_write_stored_past_block (K : Config) (fd : Int) (r1 r2 : Int × Int)
    (s s1 : State) (c : Int) (o : Option Int) (hinv : s.stored_past_block)
    (h : sys_write K fd r1 r2 s = .ret c o s1) : s1.stored_past_block := by
  unfold sys_write at h
  simp only [State.slot_log, State.log_heap] at h
  split at h
  · simp only [Outcome.ret.injEq] at h
    obtain ⟨-, -, rfl⟩ := h
    exact State.stored_past_block_of_eq s _ rfl (fun ev hev => by simp [hev]) hinv
  · split at h
    · simp at h
    · simp only [Outcome.ret.injEq] at h
      obtain ⟨-, -, rfl⟩ := h
      exact State.stored_past_block_of_eq s _ rfl (fun ev hev => by simp [hev]) hinv
    · rename_i p hp
      split at h
      · simp at h
      · rename_i file hfile
        split at h
        · simp only [Outcome.ret.injEq] at h
          obtain ⟨-, -, rfl⟩ := h
          exact State.stored_past_block_of_eq s _ rfl (fun ev hev => by simp [hev]) hinv
        · split at h
          · simp at h
          · split at h
            · simp only [Outcome.ret.injEq] at h
              obtain ⟨-, -, rfl⟩ := h
              exact State.stored_past_block_of_eq s _ rfl (fun ev hev => by simp [hev]) hinv
            · simp only [Outcome.ret.injEq] at h
              obtain ⟨-, -, rfl⟩ := h
              exact State.stored_past_block_update s _ p _ rfl
                (fun ev hev => by simp [State.setFile, hev]) (Or.inl ⟨file, hfile⟩) hinv

theorem sys_lseek_stored_past_block (K : Config) (fd pos : Int) (e : LseekEnv)
    (s s1 : State) (c : Int) (o : Option Int) (hinv : s.stored_past_block)
    (h : sys_lseek K fd pos e s = .ret c o s1) : s1.stored_past_block := by
  unfold sys_lseek at h
  simp only [State.slot_log, State.log_heap] at h
  split at h
  · simp only [Outcome.ret.injEq] at h
    obtain ⟨-, -, rfl⟩ := h
    exact hinv
  · split at h
    · simp at h
    · simp only [Outcome.ret.injEq] at h
      obtain ⟨-, -, rfl⟩ := h
      exact State.stored_past_block_of_eq s _ rfl (fun ev hev => by simp [hev]) hinv
    · rename_i p hp
      split at h
      · simp at h
      · rename_i file hfile
        split at h
        · simp only [Outcome.ret.injEq] at h
          obtain ⟨-, -, rfl⟩ := h
          exact State.stored_past_block_of_eq s _ rfl (fun ev hev => by simp [hev]) hinv
        · split at h
          · simp only [Outcome.ret.injEq] at h
            obtain ⟨-, -, rfl⟩ := h
            exact State.stored_past_block_of_eq s _ rfl (fun ev hev => by simp [hev]) hinv
          · split at h
            · simp only [Outcome.ret.injEq] at h
              obtain ⟨-, -, rfl⟩ := h
              exact State.stored_past_block_of_eq s _ rfl (fun ev hev => by simp [hev]) hinv
            · split at h
              · split at h
                · simp only [Outcome.ret.injEq] at h
                  obtain ⟨-, -, rfl⟩ := h
                  exact State.stored_past_block_of_eq s _ rfl (fun ev hev => by simp [hev])
                    hinv
                · split at h
                  · simp at h
                  · simp only [Outcome.ret.injEq] at h
                    obtain ⟨-, -, rfl⟩ := h
                    exact State.stored_past_block_update s _ p _ rfl
                      (fun ev hev => by simp [State.setFile, hev]) (Or.inl ⟨file, hfile⟩) hinv
              · split at h
                · split at h
                  · simp at h
                  · split at h
                    · simp only [Outcome.ret.injEq] at h
                      obtain ⟨-, -, rfl⟩ := h
                      exact State.stored_past_block_of_eq s _ rfl
                        (fun ev hev => by simp [hev]) hinv
                    · simp only [Outcome.ret.injEq] at h
                      obtain ⟨-, -, rfl⟩ := h
                      exact State.stored_past_block_update s _ p _ rfl
                        (fun ev hev => by simp [State.setFile, hev]) (Or.inl ⟨file, hfile⟩)
                        hinv
                · split at h
                  · split at h
                    · simp only [Outcome.ret.injEq] at h
                      obtain ⟨-, -, rfl⟩ := h
                      exact State.stored_past_block_of_eq s _ rfl
                        (fun ev hev => by simp [hev]) hinv
                    · split at h
                      · simp at h
                      · simp only [Outcome.ret.injEq] at h
                        obtain ⟨-, -, rfl⟩ := h
                        exact State.stored_past_block_update s _ p _ rfl
                          (fun ev hev => by simp [State.setFile, hev])
                          (Or.inl ⟨file, hfile⟩) hinv
                  · simp only [Outcome.ret.injEq] at h
                    obtain ⟨-, -, rfl⟩ := h
                    exact State.stored_past_block_of_eq s _ rfl
                      (fun ev hev => by simp [hev]) hinv

theorem sys_close_stored_past_block (K : Config) (fd : Int) (s s1 : State) (c : Int)
    (o : Option Int) (hinv : s.stored_past_block) (h : sys_close K fd s = .ret c o s1) :
    s1.stored_past_block := by
  unfold sys_close at h
  simp only [State.slot_log, State.log_heap] at h
  split at h
  · simp only [Outcome.ret.injEq] at h
    obtain ⟨-, -, rfl⟩ := h
    exact hinv
  · split at h
    · simp at h
    · simp only [Outcome.ret.injEq] at h
      obtain ⟨-, -, rfl⟩ := h
      exact State.stored_past_block_of_eq s _ rfl (fun ev hev => by simp [hev]) hinv
    · split at h
      · simp at h
      · simp at h
      · rename_i p hp
        split at h
        · simp at h
        · rename_i file hfile
          split at h
          · simp at h
          · split at h
            · simp only [Outcome.ret.injEq] at h
              obtain ⟨-, -, rfl⟩ := h
              exact State.stored_past_block_update s _ p none rfl
                (fun ev hev => by simp [State.setFile, State.setSlot, hev])
                (Or.inl ⟨file, hfile⟩) hinv
            · simp only [Outcome.ret.injEq] at h
              obtain ⟨-, -, rfl⟩ := h
              exact State.stored_past_block_update s _ p _ rfl
                (fun ev hev => by simp [State.setFile, State.setSlot, hev])
                (Or.inl ⟨file, hfile⟩) hinv

theorem sys_dup2_tail_stored_past_block (K : Config) (fd : Int) (s s1 : State) (c : Int)
    (o : Option Int) (hinv : s.stored_past_block)
    (h : sys_dup2_tail K fd s = .ret c o s1) : s1.stored_past_block := by
  unfold sys_dup2_tail at h
  simp only [State.slot_log, State.log_heap] at h
  split at h
  · simp at h
  · simp at h
  · rename_i p hp
    split at h
    · simp at h
    · rename_i file hfile
      split at h
      · simp at h
      · simp only [Outcome.ret.injEq] at h
        obtain ⟨-, -, rfl⟩ := h
        exact State.stored_past_block_update s _ p _ rfl
          (fun ev hev => by simp [State.setFile, hev]) (Or.inl ⟨file, hfile⟩) hinv

theorem sys_dup2_stored_past_block (K : Config) (oldfd newfd : Int) (s s1 : State)
    (c : Int) (o : Option Int) (hinv : s.stored_past_block)
    (h : sys_dup2 K oldfd newfd s = .ret c o s1) : s1.stored_past_block := by
  have h0 : ((s.log (.table_read oldfd)).log (.table_read newfd)).stored_past_block :=
    State.stored_past_block_of_eq s _ rfl (fun ev hev => by simp [hev]) hinv
  unfold sys_dup2 at h
  simp only [State.slot_log] at h
  split at h
  · simp only [Outcome.ret.injEq] at h
    obtain ⟨-, -, rfl⟩ := h
    exact hinv
  · split at h
    · simp at h
    · simp only [Outcome.ret.injEq] at h
      obtain ⟨-, -, rfl⟩ := h
      exact State.stored_past_block_of_eq s _ rfl (fun ev hev => by simp [hev]) hinv
    · split at h
      · simp at h
      · exact sys_dup2_tail_stored_past_block K oldfd _ s1 c o h0 h
      · split at h
        · simp at h
        · rename_i c1 o1 s2 hcl
          have h2 : s2.stored_past_block :=
            sys_close_stored_past_block K newfd _ s2 c1 o1 h0 hcl
          split at h
          · exact sys_close_stored_past_block K newfd s2 s1 c o h2 h
          · exact sys_dup2_tail_stored_past_block K oldfd s2 s1 c o h2 h

theorem static_open_stored_past_block (K : Config) (flags fd : Int) (e : OpenEnv)
    (s s1 : State) (c : Int) (o : Option Int) (hinv : s.stored_past_block)
    (h : static_open K flags fd e s = .ret c o s1) : s1.stored_past_block := by
  unfold static_open at h
  simp only [State.slot_log] at h
  split at h
  · simp only [Outcome.ret.injEq] at h
    obtain ⟨-, -, rfl⟩ := h
    exact State.stored_past_block_of_eq s _ rfl (fun ev hev => by simp [hev]) hinv
  · split at h
    · simp only [Outcome.ret.injEq] at h
      obtain ⟨-, -, rfl⟩ := h
      exact State.stored_past_block_of_eq s _ rfl (fun ev hev => by simp [hev]) hinv
    · split at h
      · simp at h
      · split at h
        · simp at h
        · simp only [Outcome.ret.injEq] at h
          obtain ⟨-, -, rfl⟩ := h
          exact State.stored_past_block_update s _ s.brk _ rfl
            (fun ev hev => by simp [State.setFile, State.setSlot, hev])
            (Or.inr (by simp [State.setFile, State.setSlot])) hinv

theorem sys_open_stored_past_block (K : Config) (filename : Nat) (flags : Int)
    (e : SysOpenEnv) (s s1 : State) (c : Int) (o : Option Int) (hinv : s.stored_past_block)
    (h : sys_open K filename flags e s = .ret c o s1) : s1.stored_past_block := by
  obtain ⟨-, fb, -, -, -⟩ := sys_open_loop_frame (K.MAX_PROCESS_OPEN_FILES - 3) 3
    ((s.log .kmalloc).log .copyinstr)
  have hl : (sys_open_loop (K.MAX_PROCESS_OPEN_FILES - 3) 3
      ((s.log .kmalloc).log .copyinstr)).2.stored_past_block :=
    State.stored_past_block_of_eq s _ fb
      (fun ev hev => sys_open_loop_trace _ _ _ ev (by simp [hev])) hinv
  have hlk : ((sys_open_loop (K.MAX_PROCESS_OPEN_FILES - 3) 3
      ((s.log .kmalloc).log .copyinstr)).2.log .kfree).stored_past_block :=
    State.stored_past_block_of_eq
      (sys_open_loop (K.MAX_PROCESS_OPEN_FILES - 3) 3 ((s.log .kmalloc).log .copyinstr)).2 _
      rfl (fun ev hev => by simp [hev]) hl
  unfold sys_open at h
  split at h
  · simp only [Outcome.ret.injEq] at h
    obtain ⟨-, -, rfl⟩ := h
    exact hinv
  · split at h
    · simp only [Outcome.ret.injEq] at h
      obtain ⟨-, -, rfl⟩ := h
      exact State.stored_past_block_of_eq s _ rfl (fun ev hev => by simp [hev]) hinv
    · split at h
      · simp only [Outcome.ret.injEq] at h
        obtain ⟨-, -, rfl⟩ := h
        exact State.stored_past_block_of_eq s _ rfl (fun ev hev => by simp [hev]) hinv
      · simp only at h
        split at h
        · simp only [Outcome.ret.injEq] at h
          obtain ⟨-, -, rfl⟩ := h
          exact hlk
        · split at h
          · simp only [Outcome.ret.injEq] at h
            obtain ⟨-, -, rfl⟩ := h
            exact hlk
          · split at h
            · simp at h
            · rename_i c1 o1 s2 hso
              have h2 : s2.stored_past_block :=
                static_open_stored_past_block K flags _ e.open1 _ s2 c1 o1 hl hso
              split at h
              · exact static_open_stored_past_block K flags _ e.open2 (s2.log .kfree) s1 c o
                  (State.stored_past_block_of_eq s2 _ rfl (fun ev hev => by simp [hev]) h2) h
              · simp only [Outcome.ret.injEq] at h
                obtain ⟨-, -, rfl⟩ := h
                exact State.stored_past_block_of_eq s2 _ rfl (fun ev hev => hev) h2

/-- In every reachable state, every live file object was created by an `open`
whose field stores reached beyond the block `kmalloc` returned (line 275
allocates `sizeof(struct File*)` bytes): the fields of every live object,
`offset` and `references` included, lie in memory the object does not own. -/
theorem Reachable.stored_past_block (K : Config) (s : State) (h : Reachable K s) :
    ∀ p f, s.heap p = some f → Event.store_past_block p ∈ s.trace := by
  induction h with
  | init =>
    intro p f hp
    simp [State.init] at hp
  | @step s0 s2 call code out _ hex ih =>
    cases call with
    | sys_open filename flags e =>
      exact sys_open_stored_past_block K filename flags e s0 s2 code out ih hex
    | sys_read fd r1 r2 => exact sys_read_stored_past_block K fd r1 r2 s0 s2 code out ih hex
    | sys_write fd r1 r2 => exact sys_write_stored_past_block K fd r1 r2 s0 s2 code out ih hex
    | sys_lseek fd pos e => exact sys_lseek_stored_past_block K fd pos e s0 s2 code out ih hex
    | sys_dup2 oldfd newfd =>
      exact sys_dup2_stored_past_block K oldfd newfd s0 s2 code out ih hex
    | sys_close fd => exact sys_close_stored_past_block K fd s0 s2 code out ih hex

end OS161
